import Mathlib

/-!
Shallow embedding of the `return_to_monk` Monkey interpreter
(`src/token.rs`, `src/lexer.rs`, `src/ast.rs`, `src/parser.rs`,
`src/evaluator.rs`) in Lean 4, together with theorems settling the
frozen claims about it.

Conventions used throughout:

* Rust `isize` is embedded as `Int` (claims never exercise overflow,
  which the spec leaves undefined).
* Fallible Rust code (`Option`, panics) is embedded with `Option`;
  `none` marks a panic (e.g. an `unwrap` failure) or, for the fuelled
  recursive functions, exhaustion of the fuel that stands in for the
  source's unbounded loops/recursion.
* Names follow the source, except that the source's `Prefix`/`Infix`
  AST constructors and the corresponding parser/evaluator helpers are
  rendered `UnOp`/`BinOp` and `...Unary.../...Binary...` here.
-/

/-- Token type, mirroring `token.rs`'s `enum Token`.  `INT` carries the
source's `isize` as `Int`. -/
inductive Token where
  | ILLEGAL : Token
  | EOF : Token
  | IDENT : String → Token
  | INT : Int → Token
  | ASSIGN : Token
  | PLUS : Token
  | MINUS : Token
  | BANG : Token
  | ASTERISK : Token
  | SLASH : Token
  | LT : Token
  | GT : Token
  | COMMA : Token
  | SEMICOLON : Token
  | LPAREN : Token
  | RPAREN : Token
  | LBRACE : Token
  | RBRACE : Token
  | EQ : Token
  | NOT_EQ : Token
  | FUNCTION : Token
  | LET : Token
  | IF : Token
  | ELSE : Token
  | TRUE : Token
  | FALSE : Token
  | RETURN : Token
deriving DecidableEq

/-- Keyword table, mirroring `token.rs`'s `lookup_ident`. -/
def lookupIdent (ident : String) : Token :=
  if ident = "fn" then Token.FUNCTION
  else if ident = "let" then Token.LET
  else if ident = "if" then Token.IF
  else if ident = "else" then Token.ELSE
  else if ident = "true" then Token.TRUE
  else if ident = "false" then Token.FALSE
  else if ident = "return" then Token.RETURN
  else Token.IDENT ident

/-- Decimal rendering of a `Nat` (the digits of Rust's `{}` formatting). -/
def natStr (n : Nat) : String := Nat.repr n

/-- Decimal rendering of an `Int`, as Rust's `Display` for `isize`. -/
def intStr (n : Int) : String :=
  if n < 0 then "-" ++ natStr n.natAbs else natStr n.natAbs

/-- Rendering of a token by Rust's `{:?}` (`derive(Debug)`), used in the
parser's error strings. -/
def debugToken : Token → String
  | Token.ILLEGAL => "ILLEGAL"
  | Token.EOF => "EOF"
  | Token.IDENT s => "IDENT(\"" ++ s ++ "\")"
  | Token.INT i => "INT(" ++ intStr i ++ ")"
  | Token.ASSIGN => "ASSIGN"
  | Token.PLUS => "PLUS"
  | Token.MINUS => "MINUS"
  | Token.BANG => "BANG"
  | Token.ASTERISK => "ASTERISK"
  | Token.SLASH => "SLASH"
  | Token.LT => "LT"
  | Token.GT => "GT"
  | Token.COMMA => "COMMA"
  | Token.SEMICOLON => "SEMICOLON"
  | Token.LPAREN => "LPAREN"
  | Token.RPAREN => "RPAREN"
  | Token.LBRACE => "LBRACE"
  | Token.RBRACE => "RBRACE"
  | Token.EQ => "EQ"
  | Token.NOT_EQ => "NOT_EQ"
  | Token.FUNCTION => "FUNCTION"
  | Token.LET => "LET"
  | Token.IF => "IF"
  | Token.ELSE => "ELSE"
  | Token.TRUE => "TRUE"
  | Token.FALSE => "FALSE"
  | Token.RETURN => "RETURN"

/-! ## Lexer (`lexer.rs`)

The lexer state mirrors the `Lexer` struct: `input` is the character
sequence (`&str` viewed through `chars()`), `inputLength` is
`input.len()` — the UTF-8 *byte* length, while `position` and
`readPosition` index *characters* via `chars().nth(..)`.  The two
notions coincide exactly on ASCII input; the mismatch on non-ASCII
input is what makes `read_char`'s `unwrap` able to panic, which the
embedding renders as `none`. -/

/-- The `'\0'` sentinel of the lexer. -/
def nullChar : Char := Char.ofNat 0

/-- UTF-8 byte length of a character sequence: Rust's `str::len`. -/
def utf8Len (cs : List Char) : Nat := (cs.map Char.utf8Size).sum

/-- Unicode `White_Space` test: Rust's `char::is_whitespace`. -/
def isRustWhitespace (c : Char) : Bool :=
  let n := c.toNat
  (9 ≤ n && n ≤ 13) || n = 32 || n = 133 || n = 160 || n = 5760 ||
  (8192 ≤ n && n ≤ 8202) || n = 8232 || n = 8233 || n = 8239 ||
  n = 8287 || n = 12288

/-- Rust's `char::is_ascii`. -/
def isAsciiCh (c : Char) : Bool := c.toNat ≤ 127

/-- Identifier-character test, mirroring `lexer.rs`'s `is_letter`:
`ch.is_ascii() && ch.is_alphabetic() || ch == '_'`. -/
def isLetter (c : Char) : Bool := (isAsciiCh c && c.isAlpha) || c = '_'

/-- Digit test, mirroring `lexer.rs`'s `is_digit`:
`ch.is_ascii() && ch.is_digit(10)`. -/
def isDigitCh (c : Char) : Bool := isAsciiCh c && c.isDigit

structure LexState where
  input : List Char
  inputLength : Nat
  position : Nat
  readPosition : Nat
  ch : Char
deriving DecidableEq

/-- Mirrors `Lexer::read_char`.  The `else` branch performs
`self.input.chars().nth(self.read_position).unwrap()`; when the
character at that index does not exist (possible only when byte length
and character count disagree, i.e. on non-ASCII input) the `unwrap`
panics, embedded as `none`. -/
def readChar (s : LexState) : Option LexState :=
  if s.inputLength ≤ s.readPosition then
    some { s with ch := nullChar, position := s.readPosition,
                  readPosition := s.readPosition + 1 }
  else
    match s.input.get? s.readPosition with
    | some c => some { s with ch := c, position := s.readPosition,
                              readPosition := s.readPosition + 1 }
    | none => none

/-- Mirrors `Lexer::peek_char`, with the same panicking `unwrap` as `read_char`. -/
def peekChar (s : LexState) : Option Char :=
  if s.inputLength ≤ s.readPosition then some nullChar
  else s.input.get? s.readPosition

/-- Mirrors `Lexer::new`: field initialisation followed by one `read_char`.
That first `read_char` cannot panic (index 0 exists whenever the byte
length is positive), so the result is a plain state. -/
def lexInit (input : List Char) : LexState :=
  match input with
  | [] => { input := [], inputLength := 0, position := 0,
            readPosition := 1, ch := nullChar }
  | c :: rest =>
      { input := c :: rest, inputLength := utf8Len (c :: rest),
        position := 0, readPosition := 1, ch := c }

/-- Loop of `Lexer::skip_whitespace`.  The source loop is unbounded; the
fuel is an embedding device, and `skipWhitespaceFuel` below shows that
`inputLength + 2` units always suffice on states satisfying the ASCII
invariant. -/
def skipWhitespace : Nat → LexState → Option LexState
  | 0, _ => none
  | f + 1, s =>
      if isRustWhitespace s.ch then (readChar s).bind (skipWhitespace f)
      else some s

/-- The scanning loop of `Lexer::read_identifier`. -/
def readIdentLoop : Nat → LexState → Option LexState
  | 0, _ => none
  | f + 1, s =>
      if isLetter s.ch then (readChar s).bind (readIdentLoop f)
      else some s

/-- Mirrors `Lexer::read_identifier`: scan, then slice
`input[ident_start..position]` (byte indices in the source; character
indices here, which agree on ASCII input). -/
def readIdentifier (f : Nat) (s : LexState) : Option (String × LexState) :=
  (readIdentLoop f s).map fun s' =>
    (String.mk ((s'.input.drop s.position).take (s'.position - s.position)), s')

/-- The scanning loop of `Lexer::read_digit`. -/
def readDigitLoop : Nat → LexState → Option LexState
  | 0, _ => none
  | f + 1, s =>
      if isDigitCh s.ch then (readChar s).bind (readDigitLoop f)
      else some s

/-- Decimal value of a character slice, as `str::parse::<isize>`
computes it on the all-digit slices `read_digit` feeds it. -/
def charsToNat (cs : List Char) : Nat :=
  cs.foldl (fun acc c => acc * 10 + (c.toNat - 48)) 0

/-- Value of `isize::MAX` on the 64-bit targets the crate builds for. -/
def isizeMax : Nat := 9223372036854775807

/-- Mirrors `Lexer::read_digit`: scan, slice
`input[digit_start..position]`, then `parse::<isize>().unwrap()`.
`parse::<isize>` succeeds on exactly the slices the scanner can
produce that are non-empty, all digits, and whose value fits in
`isize` (every slice an actual run feeds it is a digit run — proved
for invariant states in `readDigit_some`); on any other slice — in
particular an integer literal exceeding `isize::MAX` — the `unwrap`
panics, embedded as `none`. -/
def readDigit (f : Nat) (s : LexState) : Option (Int × LexState) :=
  (readDigitLoop f s).bind fun s' =>
    let ds := (s'.input.drop s.position).take (s'.position - s.position)
    if ds ≠ [] ∧ (∀ c ∈ ds, isDigitCh c = true) ∧ charsToNat ds ≤ isizeMax then
      some (Int.ofNat (charsToNat ds), s')
    else none

/-- Mirrors `Lexer::next_token`.  Branches follow the source `match` arm by
arm; the identifier and digit arms return early without the trailing
`read_char`, exactly as the source does. -/
def lexNextToken (s0 : LexState) : Option (Token × LexState) :=
  match skipWhitespace (s0.inputLength + 2) s0 with
  | none => none
  | some s =>
    if s.ch = '=' then
      match peekChar s with
      | none => none
      | some p =>
        if p = '=' then
          match readChar s with
          | none => none
          | some s1 => (readChar s1).map fun s2 => (Token.EQ, s2)
        else (readChar s).map fun s1 => (Token.ASSIGN, s1)
    else if s.ch = '+' then (readChar s).map fun s1 => (Token.PLUS, s1)
    else if s.ch = '-' then (readChar s).map fun s1 => (Token.MINUS, s1)
    else if s.ch = '!' then
      match peekChar s with
      | none => none
      | some p =>
        if p = '=' then
          match readChar s with
          | none => none
          | some s1 => (readChar s1).map fun s2 => (Token.NOT_EQ, s2)
        else (readChar s).map fun s1 => (Token.BANG, s1)
    else if s.ch = '*' then (readChar s).map fun s1 => (Token.ASTERISK, s1)
    else if s.ch = '/' then (readChar s).map fun s1 => (Token.SLASH, s1)
    else if s.ch = '<' then (readChar s).map fun s1 => (Token.LT, s1)
    else if s.ch = '>' then (readChar s).map fun s1 => (Token.GT, s1)
    else if s.ch = ',' then (readChar s).map fun s1 => (Token.COMMA, s1)
    else if s.ch = ';' then (readChar s).map fun s1 => (Token.SEMICOLON, s1)
    else if s.ch = '(' then (readChar s).map fun s1 => (Token.LPAREN, s1)
    else if s.ch = ')' then (readChar s).map fun s1 => (Token.RPAREN, s1)
    else if s.ch = Char.ofNat 123 then (readChar s).map fun s1 => (Token.LBRACE, s1)
    else if s.ch = Char.ofNat 125 then (readChar s).map fun s1 => (Token.RBRACE, s1)
    else if s.ch = nullChar then (readChar s).map fun s1 => (Token.EOF, s1)
    else if isLetter s.ch then
      (readIdentifier (s.inputLength + 2) s).map fun p => (lookupIdent p.1, p.2)
    else if isDigitCh s.ch then
      (readDigit (s.inputLength + 2) s).map fun p => (Token.INT p.1, p.2)
    else (readChar s).map fun s1 => (Token.ILLEGAL, s1)

/-- Pull tokens until `EOF` (which the lexer then keeps producing
forever); the returned list excludes the terminating `EOF`. -/
def lexAll : Nat → LexState → Option (List Token)
  | 0, _ => none
  | f + 1, s =>
    match lexNextToken s with
    | none => none
    | some (Token.EOF, _) => some []
    | some (t, s') => (lexAll f s').map fun ts => t :: ts

/-- Tokenise a whole string. -/
def lexString (str : String) : Option (List Token) :=
  lexAll (str.toList.length + 2) (lexInit str.toList)

/-! ## AST (`ast.rs`)

`ast.rs` declares `LetStatement { name: String, value: Expression }`
and `ReturnStatement(Expression)`, but `parser.rs` constructs
`LetStatement { name, value: None }` and `ReturnStatement(None)`, so
the crate as committed does not typecheck.  To embed both files with
one type, the two value fields are `Option Expression` here: `some`
covers every well-typed tree (and is what the evaluator of
`evaluator.rs` requires), while `none` represents exactly the ill-typed
trees the current parser builds. -/

/-- The source's `enum Prefix` (unary operator), renamed. -/
inductive UnOp where
  | BANG : UnOp
  | MINUS : UnOp
deriving DecidableEq

/-- The source's `enum Infix` (binary operator), renamed. -/
inductive BinOp where
  | PLUS : BinOp
  | MINUS : BinOp
  | ASTERISK : BinOp
  | SLASH : BinOp
  | EQ : BinOp
  | NOT_EQ : BinOp
  | LT : BinOp
  | GT : BinOp
deriving DecidableEq

mutual
/-- The `enum Expression` of `ast.rs`; `Prefix`/`Infix` become
`unary`/`binary`. -/
inductive Expression where
  | identifier : String → Expression
  | integerLiteral : Int → Expression
  | booleanLiteral : Bool → Expression
  | ifE : Expression → Statement → Option Statement → Expression
  | functionLiteral : List String → Statement → Expression
  | call : Expression → List Expression → Expression
  | unary : UnOp → Expression → Expression
  | binary : BinOp → Expression → Expression → Expression

/-- The `enum Statement` of `ast.rs` (with the `Option` caveat above). -/
inductive Statement where
  | letStmt : String → Option Expression → Statement
  | returnStmt : Option Expression → Statement
  | blockStmt : List Statement → Statement
  | exprStmt : Expression → Statement
end

/-- Rendering of the source's unary operators (their `Display`). -/
def unOpStr : UnOp → String
  | UnOp.BANG => "!"
  | UnOp.MINUS => "-"

/-- Rendering of the source's binary operators (their `Display`). -/
def binOpStr : BinOp → String
  | BinOp.PLUS => "+"
  | BinOp.MINUS => "-"
  | BinOp.ASTERISK => "*"
  | BinOp.SLASH => "/"
  | BinOp.EQ => "=="
  | BinOp.NOT_EQ => "!="
  | BinOp.LT => "<"
  | BinOp.GT => ">"

/-- Comma-separated rendering of a parameter/argument list, as the
indexed loops in `ast.rs`'s `Display` impls produce. -/
def commaJoin : List String → String
  | [] => ""
  | [x] => x
  | x :: y :: rest => x ++ ", " ++ commaJoin (y :: rest)

mutual
/-- Rendering of `Expression` (its `Display` in `ast.rs`).  Note that `If` and
`FunctionLiteral` print their blocks through `Display` for
`Statement`, which renders a `BlockStatement` as the bare
concatenation of its statements — no braces. -/
def displayExpr : Expression → String
  | .identifier name => name
  | .integerLiteral v => intStr v
  | .booleanLiteral v => if v then "true" else "false"
  | .unary op r => "(" ++ unOpStr op ++ displayExpr r ++ ")"
  | .binary op l r =>
      "(" ++ displayExpr l ++ " " ++ binOpStr op ++ " " ++ displayExpr r ++ ")"
  | .ifE c cons alt =>
      "if " ++ displayExpr c ++ " " ++ displayStmt cons ++ displayAlt alt
  | .functionLiteral ps body => "fn(" ++ commaJoin ps ++ ") " ++ displayStmt body
  | .call f args => displayExpr f ++ "(" ++ commaJoin (displayExprList args) ++ ")"

def displayAlt : Option Statement → String
  | some a => "else " ++ displayStmt a
  | none => ""

def displayExprList : List Expression → List String
  | [] => []
  | e :: es => displayExpr e :: displayExprList es

/-- Rendering of `Statement` (its `Display` in `ast.rs`).  The `none` value of a
`letStmt`/`returnStmt` has no source counterpart (see the AST note)
and renders as the empty expression. -/
def displayStmt : Statement → String
  | .letStmt name v => "let " ++ name ++ " = " ++ displayOptExpr v ++ ";"
  | .returnStmt v => "return " ++ displayOptExpr v ++ ";"
  | .blockStmt sts => String.join (displayStmtList sts)
  | .exprStmt e => displayExpr e

def displayOptExpr : Option Expression → String
  | some e => displayExpr e
  | none => ""

def displayStmtList : List Statement → List String
  | [] => []
  | s :: ss => displayStmt s :: displayStmtList ss
end

/-- Rendering of `Program`: the concatenation of its statements. -/
def displayProgram (sts : List Statement) : String :=
  String.join (displayStmtList sts)

mutual
/-- Structural equality on `Expression` — the derived `PartialEq` of
`ast.rs`. -/
def beqExpr : Expression → Expression → Bool
  | .identifier s, b =>
      match b with | .identifier t => s == t | _ => false
  | .integerLiteral n, b =>
      match b with | .integerLiteral m => n == m | _ => false
  | .booleanLiteral x, b =>
      match b with | .booleanLiteral y => x == y | _ => false
  | .ifE c t e, b =>
      match b with
      | .ifE c' t' e' => beqExpr c c' && beqStmt t t' && beqOptStmt e e'
      | _ => false
  | .functionLiteral ps body, b =>
      match b with
      | .functionLiteral ps' body' => ps == ps' && beqStmt body body'
      | _ => false
  | .call f as, b =>
      match b with
      | .call f' as' => beqExpr f f' && beqExprList as as'
      | _ => false
  | .unary op r, b =>
      match b with | .unary op' r' => op == op' && beqExpr r r' | _ => false
  | .binary op l r, b =>
      match b with
      | .binary op' l' r' => op == op' && beqExpr l l' && beqExpr r r'
      | _ => false
termination_by structural a _ => a

def beqOptStmt : Option Statement → Option Statement → Bool
  | some a, b => match b with | some b' => beqStmt a b' | none => false
  | none, b => match b with | none => true | _ => false
termination_by structural a _ => a

def beqExprList : List Expression → List Expression → Bool
  | [], b => match b with | [] => true | _ => false
  | e :: es, b =>
      match b with
      | e' :: es' => beqExpr e e' && beqExprList es es'
      | _ => false
termination_by structural a _ => a

/-- Structural equality on `Statement` — the derived `PartialEq` of
`ast.rs`. -/
def beqStmt : Statement → Statement → Bool
  | .letStmt n v, b =>
      match b with
      | .letStmt n' v' => n == n' && beqOptExpr v v'
      | _ => false
  | .returnStmt v, b =>
      match b with | .returnStmt v' => beqOptExpr v v' | _ => false
  | .blockStmt sts, b =>
      match b with | .blockStmt sts' => beqStmtList sts sts' | _ => false
  | .exprStmt e, b =>
      match b with | .exprStmt e' => beqExpr e e' | _ => false
termination_by structural a _ => a

def beqOptExpr : Option Expression → Option Expression → Bool
  | some a, b => match b with | some b' => beqExpr a b' | none => false
  | none, b => match b with | none => true | _ => false
termination_by structural a _ => a

def beqStmtList : List Statement → List Statement → Bool
  | [], b => match b with | [] => true | _ => false
  | s :: ss, b =>
      match b with
      | s' :: ss' => beqStmt s s' && beqStmtList ss ss'
      | _ => false
termination_by structural a _ => a
end

/-! ## Parser (`parser.rs`)

The parser state carries the source's `current_token`, `peek_token`
and `errors`.  The source pulls tokens lazily from the lexer; since
lexing is deterministic and independent of the parser, the embedding
pulls from the pre-computed token list `rest`, with reads past its end
producing `EOF` — exactly what the lexer yields forever once its input
is exhausted (`lexAtEnd` below).  Every recursive parsing function
takes a fuel argument standing in for the source's unbounded
loops/recursion; `none` means the fuel ran out, i.e. within the fuel
bound the source would still be running.  A `(some (none, s))` result
is the source's `None` ("no statement / no expression"), which is an
ordinary, terminating outcome. -/

structure PState where
  rest : List Token
  cur : Token
  peek : Token
  errors : List String
deriving DecidableEq

/-- Mirrors `Parser::next_token`. -/
def pAdvance (s : PState) : PState :=
  { rest := s.rest.tail, cur := s.peek, peek := s.rest.headD Token.EOF,
    errors := s.errors }

/-- Mirrors `Parser::new`: both tokens start as `EOF`, then `next_token` twice. -/
def pInit (ts : List Token) : PState :=
  pAdvance (pAdvance { rest := ts, cur := Token.EOF, peek := Token.EOF, errors := [] })

def pushError (s : PState) (e : String) : PState :=
  { s with errors := s.errors ++ [e] }

/-- Mirrors `Parser::peek_error`. -/
def peekError (s : PState) (t : Token) : PState :=
  pushError s ("expected next token to be " ++ debugToken t ++ ", got " ++
               debugToken s.peek ++ " instead")

/-- Mirrors `Parser::expect_peek`. -/
def expectPeek (s : PState) (t : Token) : Bool × PState :=
  if s.peek = t then (true, pAdvance s) else (false, peekError s t)

/-- The `Precedence` ladder as numbers:
`LOWEST = 0 < EQUALS < LESSGREATER < SUM < PRODUCT < PREFIX = 5 < CALL = 6`;
this function is `current_precedence`/`peek_precedence`'s match. -/
def tokenPrecedence : Token → Nat
  | Token.EQ | Token.NOT_EQ => 1
  | Token.LT | Token.GT => 2
  | Token.PLUS | Token.MINUS => 3
  | Token.ASTERISK | Token.SLASH => 4
  | Token.LPAREN => 6
  | _ => 0

/-- The operator match of `parse_infix` (`_ => return None` as `none`). -/
def binOpOfToken : Token → Option BinOp
  | Token.PLUS => some BinOp.PLUS
  | Token.MINUS => some BinOp.MINUS
  | Token.ASTERISK => some BinOp.ASTERISK
  | Token.SLASH => some BinOp.SLASH
  | Token.EQ => some BinOp.EQ
  | Token.NOT_EQ => some BinOp.NOT_EQ
  | Token.LT => some BinOp.LT
  | Token.GT => some BinOp.GT
  | _ => none

/-- The operator match of the source's unary-operator parse function. -/
def unOpOfToken : Token → Option UnOp
  | Token.BANG => some UnOp.BANG
  | Token.MINUS => some UnOp.MINUS
  | _ => none

/-! The parsing functions are mutually recursive with unbounded
recursion in the source.  They are embedded as one bundle of functions
defined by iterating a single (non-recursive) step: `parserAt f` makes
`f` units of fuel available, and each function of `parserStep rec`
performs the recursive calls of its source counterpart through `rec`,
i.e. at one unit less.  `none` means the fuel ran out — the source
would still be running at that depth — while `some (none, s)` is the
source's ordinary `None` result ("no statement"/"no expression"). -/

structure ParserFns where
  program : PState → Option (List Statement × PState)
  stmt : PState → Option (Option Statement × PState)
  letS : PState → Option (Option Statement × PState)
  returnS : PState → Option (Option Statement × PState)
  exprS : PState → Option (Option Statement × PState)
  expr : Nat → PState → Option (Option Expression × PState)
  exprLoop : Nat → Option Expression → PState → Option (Option Expression × PState)
  grouped : PState → Option (Option Expression × PState)
  ifExpr : PState → Option (Option Expression × PState)
  fnLit : PState → Option (Option Expression × PState)
  fnParams : PState → Option (Option (List String) × PState)
  paramsLoop : PState → Option (Option (List String) × PState)
  unary : PState → Option (Option Expression × PState)
  binary : Expression → PState → Option (Option Expression × PState)
  callExpr : Expression → PState → Option (Option Expression × PState)
  callArgs : PState → Option (Option (List Expression) × PState)
  argsLoop : PState → Option (Option (List Expression) × PState)
  blockS : PState → Option (Statement × PState)
  blockLoop : PState → Option (List Statement × PState)
  skipSemi : PState → Option PState

/-- Zero fuel: every parsing function is still running. -/
def parserNone : ParserFns where
  program := fun _ => none
  stmt := fun _ => none
  letS := fun _ => none
  returnS := fun _ => none
  exprS := fun _ => none
  expr := fun _ _ => none
  exprLoop := fun _ _ _ => none
  grouped := fun _ => none
  ifExpr := fun _ => none
  fnLit := fun _ => none
  fnParams := fun _ => none
  paramsLoop := fun _ => none
  unary := fun _ => none
  binary := fun _ _ => none
  callExpr := fun _ _ => none
  callArgs := fun _ => none
  argsLoop := fun _ => none
  blockS := fun _ => none
  blockLoop := fun _ => none
  skipSemi := fun _ => none

/-- One step of every parsing function of `parser.rs`, each clause a
direct transcription of its source function (named in the comment at
the head of each field). -/
def parserStep (rec : ParserFns) : ParserFns where
  -- `Parser::parse_program`'s `while self.current_token != Token::EOF` loop.
  program := fun s =>
    if s.cur = Token.EOF then some ([], s)
    else
      match rec.stmt s with
      | none => none
      | some (stOpt, s1) =>
        match rec.program (pAdvance s1) with
        | none => none
        | some (sts, s2) =>
            some ((match stOpt with | some st => st :: sts | none => sts), s2)
  -- `Parser::parse_statement`.
  stmt := fun s =>
    match s.cur with
    | Token.LET => rec.letS s
    | Token.RETURN => rec.returnS s
    | _ => rec.exprS s
  -- `Parser::parse_let_statement`, exactly as committed: require an
  -- `IDENT` in peek position, require `=`, then *skip* everything up
  -- to a `;` and build `LetStatement { name, value: None }` — the
  -- value expression is never parsed.
  letS := fun s =>
    match s.peek with
    | Token.IDENT name =>
      let s1 := pAdvance s
      match expectPeek s1 Token.ASSIGN with
      | (false, s2) => some (none, s2)
      | (true, s2) =>
        match rec.skipSemi s2 with
        | none => none
        | some s3 => some (some (Statement.letStmt name none), s3)
    | _ => some (none, s)
  -- `Parser::parse_return_statement`, exactly as committed: advance,
  -- skip to `;`, build `ReturnStatement(None)`.
  returnS := fun s =>
    match rec.skipSemi (pAdvance s) with
    | none => none
    | some s1 => some (some (Statement.returnStmt none), s1)
  -- `Parser::parse_expression_statement`.
  exprS := fun s =>
    match rec.expr 0 s with
    | none => none
    | some (none, s1) => some (none, s1)
    | some (some e, s1) =>
      let s2 := if s1.peek = Token.SEMICOLON then pAdvance s1 else s1
      some (some (Statement.exprStmt e), s2)
  -- `Parser::parse_expression`: dispatch on the current token to the
  -- registered starting handler (the source's prefix-handler table),
  -- then run the precedence loop.  An unhandled token records
  -- `no prefix parse function for <token>` and yields no expression.
  expr := fun prec s =>
    match s.cur with
    | Token.IDENT name =>
        rec.exprLoop prec (some (Expression.identifier name)) s
    | Token.INT i =>
        rec.exprLoop prec (some (Expression.integerLiteral i)) s
    | Token.TRUE =>
        rec.exprLoop prec (some (Expression.booleanLiteral true)) s
    | Token.FALSE =>
        rec.exprLoop prec (some (Expression.booleanLiteral false)) s
    | Token.LPAREN =>
        match rec.grouped s with
        | none => none
        | some (left, s1) => rec.exprLoop prec left s1
    | Token.IF =>
        match rec.ifExpr s with
        | none => none
        | some (left, s1) => rec.exprLoop prec left s1
    | Token.FUNCTION =>
        match rec.fnLit s with
        | none => none
        | some (left, s1) => rec.exprLoop prec left s1
    | Token.BANG =>
        match rec.unary s with
        | none => none
        | some (left, s1) => rec.exprLoop prec left s1
    | Token.MINUS =>
        match rec.unary s with
        | none => none
        | some (left, s1) => rec.exprLoop prec left s1
    | t => some (none, pushError s ("no prefix parse function for " ++ debugToken t))
  -- The `while !self.peek_token_is(&Token::SEMICOLON)` loop of
  -- `parse_expression`: stop on `;`, stop when the binding precedence
  -- is not exceeded, stop when the peek token has no continuation
  -- handler; otherwise advance and apply the handler (operator or
  -- call).
  exprLoop := fun prec left s =>
    if s.peek = Token.SEMICOLON then some (left, s)
    else if tokenPrecedence s.peek ≤ prec then some (left, s)
    else
      match s.peek with
      | Token.PLUS | Token.MINUS | Token.ASTERISK | Token.SLASH
      | Token.EQ | Token.NOT_EQ | Token.LT | Token.GT =>
        let s1 := pAdvance s
        match left with
        | none => some (none, s1)
        | some l =>
          match rec.binary l s1 with
          | none => none
          | some (left1, s2) => rec.exprLoop prec left1 s2
      | Token.LPAREN =>
        let s1 := pAdvance s
        match left with
        | none => some (none, s1)
        | some l =>
          match rec.callExpr l s1 with
          | none => none
          | some (left1, s2) => rec.exprLoop prec left1 s2
      | _ => some (left, s)
  -- `Parser::parse_grouped_expression`.
  grouped := fun s =>
    match rec.expr 0 (pAdvance s) with
    | none => none
    | some (e, s1) =>
      match expectPeek s1 Token.RPAREN with
      | (false, s2) => some (none, s2)
      | (true, s2) => some (e, s2)
  -- `Parser::parse_if_expression`.
  ifExpr := fun s =>
    match expectPeek s Token.LPAREN with
    | (false, s1) => some (none, s1)
    | (true, s1) =>
      match rec.expr 0 (pAdvance s1) with
      | none => none
      | some (none, s2) => some (none, s2)
      | some (some cond, s2) =>
        match expectPeek s2 Token.RPAREN with
        | (false, s3) => some (none, s3)
        | (true, s3) =>
          match expectPeek s3 Token.LBRACE with
          | (false, s4) => some (none, s4)
          | (true, s4) =>
            match rec.blockS s4 with
            | none => none
            | some (cons, s5) =>
              if s5.peek = Token.ELSE then
                let s6 := pAdvance s5
                match expectPeek s6 Token.LBRACE with
                | (false, s7) => some (none, s7)
                | (true, s7) =>
                  match rec.blockS s7 with
                  | none => none
                  | some (alt, s8) =>
                      some (some (Expression.ifE cond cons (some alt)), s8)
              else some (some (Expression.ifE cond cons none), s5)
  -- `Parser::parse_function_literal`.
  fnLit := fun s =>
    match expectPeek s Token.LPAREN with
    | (false, s1) => some (none, s1)
    | (true, s1) =>
      match rec.fnParams s1 with
      | none => none
      | some (none, s2) => some (none, s2)
      | some (some ps, s2) =>
        match expectPeek s2 Token.LBRACE with
        | (false, s3) => some (none, s3)
        | (true, s3) =>
          match rec.blockS s3 with
          | none => none
          | some (body, s4) =>
              some (some (Expression.functionLiteral ps body), s4)
  -- `Parser::parse_function_parameters`: empty list on an immediate
  -- `)`, else the first `IDENT` followed by the comma loop.
  fnParams := fun s =>
    if s.peek = Token.RPAREN then some (some [], pAdvance s)
    else
      let s1 := pAdvance s
      match s1.cur with
      | Token.IDENT name =>
        match rec.paramsLoop s1 with
        | none => none
        | some (none, s2) => some (none, s2)
        | some (some names, s2) => some (some (name :: names), s2)
      | _ => some (none, s1)
  -- The `while peek_token_is(&Token::COMMA)` loop of
  -- `parse_function_parameters`, ending with `expect_peek(RPAREN)`.
  paramsLoop := fun s =>
    if s.peek = Token.COMMA then
      let s1 := pAdvance (pAdvance s)
      match s1.cur with
      | Token.IDENT name =>
        match rec.paramsLoop s1 with
        | none => none
        | some (none, s2) => some (none, s2)
        | some (some names, s2) => some (some (name :: names), s2)
      | _ => some (none, s1)
    else
      match expectPeek s Token.RPAREN with
      | (false, s1) => some (none, s1)
      | (true, s1) => some (some [], s1)
  -- The source's unary-operator parse function (`BANG`/`MINUS`
  -- handler): capture the operator, advance, parse the operand at
  -- `PREFIX` precedence (5).
  unary := fun s =>
    match unOpOfToken s.cur with
    | none => some (none, s)
    | some op =>
      match rec.expr 5 (pAdvance s) with
      | none => none
      | some (none, s1) => some (none, s1)
      | some (some right, s1) => some (some (Expression.unary op right), s1)
  -- The source's binary-operator parse function (`parse_infix`):
  -- capture the operator and its precedence, advance, parse the right
  -- operand at that precedence (left-associativity for equal levels).
  binary := fun l s =>
    match binOpOfToken s.cur with
    | none => some (none, s)
    | some op =>
      match rec.expr (tokenPrecedence s.cur) (pAdvance s) with
      | none => none
      | some (none, s1) => some (none, s1)
      | some (some right, s1) =>
          some (some (Expression.binary op l right), s1)
  -- `Parser::parse_call_expression`.
  callExpr := fun l s =>
    match rec.callArgs s with
    | none => none
    | some (none, s1) => some (none, s1)
    | some (some args, s1) => some (some (Expression.call l args), s1)
  -- `Parser::parse_call_arguments`: empty list on an immediate `)`,
  -- else the first argument followed by the comma loop.
  callArgs := fun s =>
    if s.peek = Token.RPAREN then some (some [], pAdvance s)
    else
      match rec.expr 0 (pAdvance s) with
      | none => none
      | some (none, s1) => some (none, s1)
      | some (some a, s1) =>
        match rec.argsLoop s1 with
        | none => none
        | some (none, s2) => some (none, s2)
        | some (some args, s2) => some (some (a :: args), s2)
  -- The `while peek_token_is(&Token::COMMA)` loop of
  -- `parse_call_arguments`, ending with `expect_peek(RPAREN)`.
  argsLoop := fun s =>
    if s.peek = Token.COMMA then
      match rec.expr 0 (pAdvance (pAdvance s)) with
      | none => none
      | some (none, s1) => some (none, s1)
      | some (some a, s1) =>
        match rec.argsLoop s1 with
        | none => none
        | some (none, s2) => some (none, s2)
        | some (some args, s2) => some (some (a :: args), s2)
    else
      match expectPeek s Token.RPAREN with
      | (false, s1) => some (none, s1)
      | (true, s1) => some (some [], s1)
  -- `Parser::parse_block_statement` (always produces a block).
  blockS := fun s =>
    match rec.blockLoop (pAdvance s) with
    | none => none
    | some (sts, s1) => some (Statement.blockStmt sts, s1)
  -- The `while` loop of `parse_block_statement`: collect statements
  -- until `}` or `EOF`.
  blockLoop := fun s =>
    if s.cur = Token.RBRACE || s.cur = Token.EOF then some ([], s)
    else
      match rec.stmt s with
      | none => none
      | some (stOpt, s1) =>
        match rec.blockLoop (pAdvance s1) with
        | none => none
        | some (sts, s2) =>
            some ((match stOpt with | some st => st :: sts | none => sts), s2)
  -- The `while !self.current_token_is(&Token::SEMICOLON)` skip loop
  -- shared by `parse_let_statement` and `parse_return_statement`.
  -- Note it tests for `SEMICOLON` only — there is no `EOF` check.
  skipSemi := fun s =>
    if s.cur = Token.SEMICOLON then some s
    else rec.skipSemi (pAdvance s)

/-- The parser bundle with `f` units of fuel. -/
def parserAt : Nat → ParserFns
  | 0 => parserNone
  | f + 1 => parserStep (parserAt f)

/-- Runs `Parser::parse_program` at the given fuel. -/
def parseProgram (f : Nat) (s : PState) : Option (List Statement × PState) :=
  (parserAt f).program s

/-- Runs `Parser::parse_statement` at the given fuel. -/
def parseStatement (f : Nat) (s : PState) : Option (Option Statement × PState) :=
  (parserAt f).stmt s

/-- Runs `Parser::parse_let_statement` at the given fuel. -/
def parseLetStatement (f : Nat) (s : PState) : Option (Option Statement × PState) :=
  (parserAt f).letS s

/-- Runs `Parser::parse_return_statement` at the given fuel. -/
def parseReturnStatement (f : Nat) (s : PState) : Option (Option Statement × PState) :=
  (parserAt f).returnS s

/-- Runs `Parser::parse_expression` at the given fuel. -/
def parseExpression (f : Nat) (prec : Nat) (s : PState) : Option (Option Expression × PState) :=
  (parserAt f).expr prec s

/-- The let/return skip-to-`;` loop at the given fuel. -/
def skipToSemicolon (f : Nat) (s : PState) : Option PState :=
  (parserAt f).skipSemi s

/-- Run the parser on a token list, with fuel generous enough for all
the concrete programs considered here. -/
def parseTokens (ts : List Token) : Option (List Statement × List String) :=
  (parseProgram ((ts.length + 2) * 30) (pInit ts)).map fun p => (p.1, p.2.errors)

/-- Full `parse(source)`: lex, then parse. -/
def parseString (str : String) : Option (List Statement × List String) :=
  (lexString str).bind parseTokens

/-! ## Evaluator (`evaluator.rs`)

`Environment` in the source is `{ store: HashMap<String, Rc<Object>>,
outer: Option<Rc<Environment>> }`.  An `Rc<Environment>` is immutable
(there is no `RefCell`), `env.set` only ever inserts into the
*innermost* store, and `FunctionLiteral` captures `env.clone()` — a
by-value snapshot whose `outer` chain is shared but frozen.  The state
is therefore purely functional, and the `outer` chain linearises an
environment into a non-empty list of frames, innermost first, which is
the embedding used here (`EnvT`).  A store is an association list in
insertion order with in-place replacement, matching `HashMap::insert`;
the only divergence from `HashMap` is that equality of stores here is
sensitive to insertion order, which no theorem below exercises.

Every recursive evaluation function takes fuel (the source recursion
is unbounded); `none` is fuel exhaustion, `some (.error e)` is the
source's `Err(anyhow!(e))`, and `some (.ok ..)` carries the value plus
the updated environment (the source's `&mut Environment`). -/

inductive Object where
  | integer : Int → Object
  | boolean : Bool → Object
  | returnValue : Object → Object
  | function : List String → Statement → List (List (String × Object)) → Object
  | null : Object

/-- An environment: the non-empty chain of frames, innermost first. -/
abbrev EnvT := List (List (String × Object))

/-- Mirrors `Environment::new`. -/
def envNew : EnvT := [[]]

/-- Mirrors `Environment::new_enclosed`: fresh empty innermost frame over the
given outer chain. -/
def envNewEnclosed (outer : EnvT) : EnvT := [] :: outer

/-- Lookup (`HashMap::get`) on one store. -/
def storeGet : List (String × Object) → String → Option Object
  | [], _ => none
  | p :: rest, name => if p.1 = name then some p.2 else storeGet rest name

/-- Insertion (`HashMap::insert`) on one store: replace in place, else append. -/
def storeSet : List (String × Object) → String → Object → List (String × Object)
  | [], name, v => [(name, v)]
  | p :: rest, name, v =>
      if p.1 = name then (p.1, v) :: rest else p :: storeSet rest name v

/-- Mirrors `Environment::get`: look in the innermost store, then walk the
outer chain. -/
def envGet : EnvT → String → Option Object
  | [], _ => none
  | frame :: outer, name =>
      match storeGet frame name with
      | some v => some v
      | none => envGet outer name

/-- Mirrors `Environment::set`: always inserts into the innermost store. -/
def envSet : EnvT → String → Object → EnvT
  | [], name, v => [[(name, v)]]
  | frame :: outer, name, v => storeSet frame name v :: outer

/-- Mirrors `Object::type_of`. -/
def typeOf : Object → String
  | .integer _ => "INTEGER"
  | .boolean _ => "BOOLEAN"
  | .returnValue v => typeOf v
  | .function _ _ _ => "FUNCTION"
  | .null => "NULL"

/-- Mirrors `Object::is_truthy`: `Null` is falsy, `Boolean(b)` is `b`, and
everything else — including `Integer(0)` — is truthy. -/
def isTruthy : Object → Bool
  | .null => false
  | .boolean value => value
  | _ => true

mutual
/-- The derived `PartialEq` of `Object`/`Function`: structural, with
`Function` comparing parameters, body and captured environment. -/
def objBeq : Object → Object → Bool
  | .integer a, b => match b with | .integer c => a == c | _ => false
  | .boolean a, b => match b with | .boolean c => a == c | _ => false
  | .returnValue a, b => match b with | .returnValue c => objBeq a c | _ => false
  | .function ps body env, b =>
      match b with
      | .function ps' body' env' =>
          ps == ps' && beqStmt body body' && envBeq env env'
      | _ => false
  | .null, b => match b with | .null => true | _ => false
termination_by structural a _ => a

/-- The derived `PartialEq` of `Environment`, framewise along the
outer chain. -/
def envBeq : List (List (String × Object)) → List (List (String × Object)) → Bool
  | [], b => match b with | [] => true | _ => false
  | fr :: rest, b =>
      match b with
      | fr' :: rest' => frameBeq fr fr' && envBeq rest rest'
      | _ => false
termination_by structural a _ => a

/-- Equality of one store's bindings. -/
def frameBeq : List (String × Object) → List (String × Object) → Bool
  | [], b => match b with | [] => true | _ => false
  | p :: rest, b =>
      match b with
      | p' :: rest' => p.1 == p'.1 && objBeq p.2 p'.2 && frameBeq rest rest'
      | _ => false
termination_by structural a _ => a
end

/-- Rendering of `Object` (its `Display` in `evaluator.rs`), needed for the
`not a function: <value>` message. -/
def displayObject : Object → String
  | .integer value => intStr value
  | .boolean value => if value then "true" else "false"
  | .returnValue value => displayObject value
  | .function ps body _ =>
      "fn(" ++ commaJoin ps ++ ") \x7b\n" ++ displayStmt body ++ "\n\x7d"
  | .null => "null"

/-- Mirrors `eval_bang_operator_expression`. -/
def evalBangOperator (right : Object) : Except String Object :=
  match right with
  | .boolean value => .ok (.boolean (!value))
  | .null => .ok (.boolean true)
  | _ => .ok (.boolean false)

/-- Mirrors the source's minus-operator helper (renamed `Unary`). -/
def evalMinusUnaryOperator (right : Object) : Except String Object :=
  match right with
  | .integer value => .ok (.integer (-value))
  | _ => .error ("unknown operator: -" ++ typeOf right)

/-- Mirrors the source's unary-operator dispatch (renamed `Unary`). -/
def evalUnaryExpression (op : UnOp) (right : Object) : Except String Object :=
  match op with
  | UnOp.BANG => evalBangOperator right
  | UnOp.MINUS => evalMinusUnaryOperator right

/-- Mirrors the source's integer-operator helper (renamed `Binary`).  Rust `/`
truncates toward zero, as `Int.tdiv`; division by zero panics in the
source and is left at `Int.div`'s default here (no claim touches it —
the spec leaves it undefined). -/
def evalIntegerBinaryExpression (op : BinOp) (a b : Int) : Except String Object :=
  match op with
  | BinOp.PLUS => .ok (.integer (a + b))
  | BinOp.MINUS => .ok (.integer (a - b))
  | BinOp.ASTERISK => .ok (.integer (a * b))
  | BinOp.SLASH => .ok (.integer (Int.tdiv a b))
  | BinOp.LT => .ok (.boolean (decide (a < b)))
  | BinOp.GT => .ok (.boolean (decide (a > b)))
  | BinOp.EQ => .ok (.boolean (decide (a = b)))
  | BinOp.NOT_EQ => .ok (.boolean (decide (a ≠ b)))

/-- Mirrors the source's binary-operator evaluation (renamed `Binary`): differing type tags
are a `type mismatch`; two `Integer`s dispatch to integer arithmetic;
otherwise `==`/`!=` compare structurally and anything else is an
`unknown operator`. -/
def evalBinaryExpression (op : BinOp) (l r : Object) : Except String Object :=
  if typeOf l ≠ typeOf r then
    .error ("type mismatch: " ++ typeOf l ++ " " ++ binOpStr op ++ " " ++ typeOf r)
  else
    match l, r with
    | .integer a, .integer b => evalIntegerBinaryExpression op a b
    | _, _ =>
      match op with
      | BinOp.EQ => .ok (.boolean (objBeq l r))
      | BinOp.NOT_EQ => .ok (.boolean (!objBeq l r))
      | _ => .error ("unknown operator: " ++ typeOf l ++ " " ++ binOpStr op ++ " " ++ typeOf r)

/-- Parameter binding in `apply_function`:
`parameters.iter().zip(args)` — positional, extra arguments dropped,
missing parameters left unbound. -/
def bindParams (ps : List String) (args : List Object) (env : EnvT) : EnvT :=
  (ps.zip args).foldl (fun e pa => envSet e pa.1 pa.2) env

/-! The evaluation functions are mutually recursive with unbounded
recursion in the source; like the parser they are embedded as a bundle
iterated over fuel. -/

structure EvalFns where
  stmts : List Statement → EnvT → Option (Except String (Object × EnvT))
  blockStmts : List Statement → EnvT → Option (Except String (Object × EnvT))
  stmt : Statement → EnvT → Option (Except String (Object × EnvT))
  expr : Expression → EnvT → Option (Except String (Object × EnvT))
  exprs : List Expression → EnvT → Option (Except String (List Object × EnvT))
  applyFn : Object → List Object → Option (Except String Object)

/-- Zero fuel: every evaluation function is still running. -/
def evalNone : EvalFns where
  stmts := fun _ _ => none
  blockStmts := fun _ _ => none
  stmt := fun _ _ => none
  expr := fun _ _ => none
  exprs := fun _ _ => none
  applyFn := fun _ _ => none

/-- One step of every evaluation function of `evaluator.rs`, each
clause a direct transcription of its source function (named in the
comment at the head of each field). -/
def evalStep (rec : EvalFns) : EvalFns where
  -- `eval_statements` — the *program*-level loop: a `ReturnValue`
  -- stops the loop and is unwrapped by one level (`return Ok(obj.clone())`).
  stmts := fun sts env =>
    match sts with
    | [] => some (.ok (.null, env))
    | st :: rest =>
      match rec.stmt st env with
      | none => none
      | some (.error e) => some (.error e)
      | some (.ok (v, env1)) =>
        match v with
        | .returnValue obj => some (.ok (obj, env1))
        | _ =>
          match rest with
          | [] => some (.ok (v, env1))
          | _ :: _ => rec.stmts rest env1
  -- `eval_block_statement`: identical loop, but a `ReturnValue` is
  -- propagated *with its wrapper intact*.
  blockStmts := fun sts env =>
    match sts with
    | [] => some (.ok (.null, env))
    | st :: rest =>
      match rec.stmt st env with
      | none => none
      | some (.error e) => some (.error e)
      | some (.ok (v, env1)) =>
        match v with
        | .returnValue _ => some (.ok (v, env1))
        | _ =>
          match rest with
          | [] => some (.ok (v, env1))
          | _ :: _ => rec.blockStmts rest env1
  -- `eval_statement`.  The two `none`-value arms have no source
  -- counterpart (the committed crate does not typecheck there, see
  -- the AST note); they yield a distinguishable error and are never
  -- exercised by any theorem below.
  stmt := fun st env =>
    match st with
    | Statement.letStmt name (some value) =>
      match rec.expr value env with
      | none => none
      | some (.error e) => some (.error e)
      | some (.ok (obj, env1)) => some (.ok (obj, envSet env1 name obj))
    | Statement.letStmt _ none =>
        some (.error "ill-typed AST: let without value")
    | Statement.exprStmt e => rec.expr e env
    | Statement.blockStmt sts => rec.blockStmts sts env
    | Statement.returnStmt (some value) =>
      match rec.expr value env with
      | none => none
      | some (.error e) => some (.error e)
      | some (.ok (obj, env1)) => some (.ok (.returnValue obj, env1))
    | Statement.returnStmt none =>
        some (.error "ill-typed AST: return without value")
  -- `eval_expression`.
  expr := fun e env =>
    match e with
    | Expression.integerLiteral value => some (.ok (.integer value, env))
    | Expression.booleanLiteral value => some (.ok (.boolean value, env))
    | Expression.unary op r =>
      match rec.expr r env with
      | none => none
      | some (.error err) => some (.error err)
      | some (.ok (rv, env1)) =>
        match evalUnaryExpression op rv with
        | .ok v => some (.ok (v, env1))
        | .error err => some (.error err)
    | Expression.binary op l r =>
      match rec.expr l env with
      | none => none
      | some (.error err) => some (.error err)
      | some (.ok (lv, env1)) =>
        match rec.expr r env1 with
        | none => none
        | some (.error err) => some (.error err)
        | some (.ok (rv, env2)) =>
          match evalBinaryExpression op lv rv with
          | .ok v => some (.ok (v, env2))
          | .error err => some (.error err)
    | Expression.ifE cond cons alt =>
      match rec.expr cond env with
      | none => none
      | some (.error err) => some (.error err)
      | some (.ok (cv, env1)) =>
        if isTruthy cv then rec.stmt cons env1
        else
          match alt with
          | some a => rec.stmt a env1
          | none => some (.ok (.null, env1))
    | Expression.identifier name =>
      match envGet env name with
      | some v => some (.ok (v, env))
      | none => some (.error ("identifier not found: " ++ name))
    | Expression.functionLiteral ps body =>
        some (.ok (.function ps body env, env))
    | Expression.call fexp args =>
      match rec.expr fexp env with
      | none => none
      | some (.error err) => some (.error err)
      | some (.ok (fv, env1)) =>
        match rec.exprs args env1 with
        | none => none
        | some (.error err) => some (.error err)
        | some (.ok (avs, env2)) =>
          match rec.applyFn fv avs with
          | none => none
          | some (.error err) => some (.error err)
          | some (.ok v) => some (.ok (v, env2))
  -- `eval_expressions`: argument lists evaluate left to right, the
  -- first error aborting the rest.
  exprs := fun es env =>
    match es with
    | [] => some (.ok ([], env))
    | e :: rest =>
      match rec.expr e env with
      | none => none
      | some (.error err) => some (.error err)
      | some (.ok (v, env1)) =>
        match rec.exprs rest env1 with
        | none => none
        | some (.error err) => some (.error err)
        | some (.ok (vs, env2)) => some (.ok (v :: vs, env2))
  -- `apply_function`: the callee must be a `Function`; its body runs
  -- in a fresh environment enclosing the *captured* environment (not
  -- the caller's), with parameters bound positionally; a resulting
  -- `ReturnValue` is unwrapped.  The local environment is discarded —
  -- the caller's environment is untouched.
  applyFn := fun fv args =>
    match fv with
    | Object.function ps body fenv =>
      match rec.stmt body (bindParams ps args (envNewEnclosed fenv)) with
      | none => none
      | some (.error e) => some (.error e)
      | some (.ok (v, _)) =>
        match v with
        | .returnValue inner => some (.ok inner)
        | _ => some (.ok v)
    | _ => some (.error ("not a function: " ++ displayObject fv))

/-- The evaluator bundle with `f` units of fuel. -/
def evalAt : Nat → EvalFns
  | 0 => evalNone
  | f + 1 => evalStep (evalAt f)

/-- Runs `eval_statements` at the given fuel. -/
def evalStatements (f : Nat) (sts : List Statement) (env : EnvT) :
    Option (Except String (Object × EnvT)) :=
  (evalAt f).stmts sts env

/-- Runs `eval_block_statement` at the given fuel. -/
def evalBlockStatements (f : Nat) (sts : List Statement) (env : EnvT) :
    Option (Except String (Object × EnvT)) :=
  (evalAt f).blockStmts sts env

/-- Runs `eval_statement` at the given fuel. -/
def evalStatement (f : Nat) (st : Statement) (env : EnvT) :
    Option (Except String (Object × EnvT)) :=
  (evalAt f).stmt st env

/-- Runs `eval_expression` at the given fuel. -/
def evalExpression (f : Nat) (e : Expression) (env : EnvT) :
    Option (Except String (Object × EnvT)) :=
  (evalAt f).expr e env

/-- Runs `apply_function` at the given fuel. -/
def applyFunction (f : Nat) (fv : Object) (args : List Object) :
    Option (Except String Object) :=
  (evalAt f).applyFn fv args

/-- The crate's `eval(program, env)` with the usual fresh REPL
environment, projected to the resulting value. -/
def evalProgram (f : Nat) (program : List Statement) : Option (Except String Object) :=
  (evalStatements f program envNew).map fun r => r.map fun p => p.1

/-- Parse a source string and evaluate the program in a fresh
environment (the REPL pipeline). -/
def runString (str : String) : Option (Except String Object) :=
  match parseString str with
  | some (sts, _) => evalProgram 1000 sts
  | none => none


/-! ## Concrete programs used by the theorems

Each is the tree that §6's grammar assigns to the quoted source text;
where the text contains no `let`/`return` the committed parser itself
produces exactly this tree (proved below), while `let`/`return` values
cannot be produced by the committed parser at all (claims C4/C6). -/

/-- Program `if (10 > 1) { if (10 > 1) { return 10; } return 1; }`. -/
def nestedReturnProg : List Statement :=
  [Statement.exprStmt (Expression.ifE
    (Expression.binary BinOp.GT (Expression.integerLiteral 10) (Expression.integerLiteral 1))
    (Statement.blockStmt
      [Statement.exprStmt (Expression.ifE
        (Expression.binary BinOp.GT (Expression.integerLiteral 10) (Expression.integerLiteral 1))
        (Statement.blockStmt [Statement.returnStmt (some (Expression.integerLiteral 10))]) none),
       Statement.returnStmt (some (Expression.integerLiteral 1))])
    none)]

/-- Program `return if (true) { return 5; };` — a return whose value
expression itself evaluates to a `ReturnValue`. -/
def returnLeakProg : List Statement :=
  [Statement.returnStmt (some (Expression.ifE (Expression.booleanLiteral true)
    (Statement.blockStmt [Statement.returnStmt (some (Expression.integerLiteral 5))]) none))]

/-- Program `let newAdder = fn(x) { fn(y) { x + y }; }; let addTwo = newAdder(2); addTwo(3);`. -/
def closureProg : List Statement :=
  [Statement.letStmt "newAdder" (some (Expression.functionLiteral ["x"]
      (Statement.blockStmt [Statement.exprStmt (Expression.functionLiteral ["y"]
        (Statement.blockStmt [Statement.exprStmt
          (Expression.binary BinOp.PLUS (Expression.identifier "x") (Expression.identifier "y"))]))]))),
   Statement.letStmt "addTwo"
     (some (Expression.call (Expression.identifier "newAdder") [Expression.integerLiteral 2])),
   Statement.exprStmt (Expression.call (Expression.identifier "addTwo") [Expression.integerLiteral 3])]

/-- Program `let f = fn() { x; }; let x = 5; f();`. -/
def lateBindProg : List Statement :=
  [Statement.letStmt "f" (some (Expression.functionLiteral []
      (Statement.blockStmt [Statement.exprStmt (Expression.identifier "x")]))),
   Statement.letStmt "x" (some (Expression.integerLiteral 5)),
   Statement.exprStmt (Expression.call (Expression.identifier "f") [])]

/-- Program `fn(x) { x; } == fn(x) { x; }`. -/
def fnEqProg : List Statement :=
  [Statement.exprStmt (Expression.binary BinOp.EQ
    (Expression.functionLiteral ["x"] (Statement.blockStmt [Statement.exprStmt (Expression.identifier "x")]))
    (Expression.functionLiteral ["x"] (Statement.blockStmt [Statement.exprStmt (Expression.identifier "x")])))]

/-- Program `let a = 1; let f = fn(x) { x; }; f == fn(x) { x; };` — two
textually identical literals whose captured environments differ. -/
def fnEnvDiffProg : List Statement :=
  [Statement.letStmt "a" (some (Expression.integerLiteral 1)),
   Statement.letStmt "f" (some (Expression.functionLiteral ["x"]
     (Statement.blockStmt [Statement.exprStmt (Expression.identifier "x")]))),
   Statement.exprStmt (Expression.binary BinOp.EQ (Expression.identifier "f")
     (Expression.functionLiteral ["x"]
       (Statement.blockStmt [Statement.exprStmt (Expression.identifier "x")])))]

/-- Expression `-a * b`. -/
def negMulTree : Expression :=
  Expression.binary BinOp.ASTERISK
    (Expression.unary UnOp.MINUS (Expression.identifier "a")) (Expression.identifier "b")

/-- Expression `a + b * c + d / e - f`. -/
def precChainTree : Expression :=
  Expression.binary BinOp.MINUS
    (Expression.binary BinOp.PLUS
      (Expression.binary BinOp.PLUS (Expression.identifier "a")
        (Expression.binary BinOp.ASTERISK (Expression.identifier "b") (Expression.identifier "c")))
      (Expression.binary BinOp.SLASH (Expression.identifier "d") (Expression.identifier "e")))
    (Expression.identifier "f")

/-- Expression `if (x) { y }`. -/
def ifBareTree : Expression :=
  Expression.ifE (Expression.identifier "x")
    (Statement.blockStmt [Statement.exprStmt (Expression.identifier "y")]) none

/-- Program `5 + true;`. -/
def intPlusBoolProg : List Statement :=
  [Statement.exprStmt (Expression.binary BinOp.PLUS
    (Expression.integerLiteral 5) (Expression.booleanLiteral true))]

/-- Program `-true`. -/
def minusTrueProg : List Statement :=
  [Statement.exprStmt (Expression.unary UnOp.MINUS (Expression.booleanLiteral true))]

/-- Program `true + false;`. -/
def boolPlusBoolProg : List Statement :=
  [Statement.exprStmt (Expression.binary BinOp.PLUS
    (Expression.booleanLiteral true) (Expression.booleanLiteral false))]

/-- Program `foobar`. -/
def unboundIdentProg : List Statement :=
  [Statement.exprStmt (Expression.identifier "foobar")]

/-- Program `if (1) { 10 }`. -/
def ifOneProg : List Statement :=
  [Statement.exprStmt (Expression.ifE (Expression.integerLiteral 1)
    (Statement.blockStmt [Statement.exprStmt (Expression.integerLiteral 10)]) none)]

/-- Program `if (0) { 10 } else { 20 }`. -/
def ifZeroProg : List Statement :=
  [Statement.exprStmt (Expression.ifE (Expression.integerLiteral 0)
    (Statement.blockStmt [Statement.exprStmt (Expression.integerLiteral 10)])
    (some (Statement.blockStmt [Statement.exprStmt (Expression.integerLiteral 20)])))]

/-- Program `if (false) { 10 }`. -/
def ifFalseProg : List Statement :=
  [Statement.exprStmt (Expression.ifE (Expression.booleanLiteral false)
    (Statement.blockStmt [Statement.exprStmt (Expression.integerLiteral 10)]) none)]

/-- The tokens of `let x = 5` (no trailing semicolon). -/
def letNoSemiTokens : List Token :=
  [Token.LET, Token.IDENT "x", Token.ASSIGN, Token.INT 5]

/-! ## Lexer invariant and totality lemmas (claim C9)

`LexInv` holds exactly when the byte length that the lexer uses as its
bound agrees with the character count it uses for indexing — true for
every ASCII input and preserved by every lexer operation — together
with the reachability facts that every `read_char` maintains: the read
cursor is one past the current character's position, once the cursor
has passed the end the current character is the `'\0'` sentinel, and
otherwise the current character is the input character at the current
position. -/

def LexInv (s : LexState) : Prop :=
  s.input.length = s.inputLength ∧
  (s.inputLength < s.readPosition → s.ch = nullChar) ∧
  s.readPosition = s.position + 1 ∧
  (s.position < s.input.length → s.input.get? s.position = some s.ch)

instance (s : LexState) : Decidable (LexInv s) := by
  unfold LexInv; infer_instance

/-- Property of an input under which `read_digit`'s
`parse::<isize>().unwrap()` cannot panic: every contiguous all-digit
slice of the input has value at most `isize::MAX`.  (The bounds on the
slice endpoints make the property decidable; slices beyond them are
duplicates of bounded ones.) -/
def DigitRunsFit (cs : List Char) : Prop :=
  ∀ a : Nat, a ≤ cs.length → ∀ b : Nat, b ≤ cs.length →
    (∀ c ∈ (cs.drop a).take b, isDigitCh c = true) →
    charsToNat ((cs.drop a).take b) ≤ isizeMax

instance (cs : List Char) : Decidable (DigitRunsFit cs) := by
  unfold DigitRunsFit; infer_instance

/-- The characters `next_token` matches explicitly. -/
def opChars : List Char :=
  ['=', '+', '-', '!', '*', '/', '<', '>', ',', ';', '(', ')',
   Char.ofNat 123, Char.ofNat 125]

/-- No `SEMICOLON` anywhere in the parser's view of the stream. -/
def NoSemi (s : PState) : Prop :=
  s.cur ≠ Token.SEMICOLON ∧ s.peek ≠ Token.SEMICOLON ∧ Token.SEMICOLON ∉ s.rest

instance (s : PState) : Decidable (NoSemi s) := by
  unfold NoSemi; infer_instance

/-- The state of the parser immediately after `Parser::new` on the
tokens of `let x = 5` (no trailing semicolon). -/
def letNoSemiInit : PState :=
  { rest := [Token.ASSIGN, Token.INT 5], cur := Token.LET,
    peek := Token.IDENT "x", errors := [] }

/-- The state at which `parse_let_statement`'s skip loop starts on
that input: the `=` is current, the `5` is peeked, nothing remains. -/
def letNoSemiSkipState : PState :=
  { rest := [], cur := Token.ASSIGN, peek := Token.INT 5, errors := [] }

theorem readChar_some (s : LexState) (h : LexInv s) :
    ∃ s', readChar s = some s' ∧ LexInv s' ∧ s'.input = s.input ∧
      s'.inputLength = s.inputLength ∧ s'.readPosition = s.readPosition + 1 ∧
      s'.position = s.readPosition := by
  have h1 := h.1
  unfold readChar
  by_cases hle : s.inputLength ≤ s.readPosition
  · refine ⟨{ s with ch := nullChar, position := s.readPosition, readPosition := s.readPosition + 1 }, by rw [if_pos hle], ⟨h.1, fun _ => rfl, rfl, fun hc => ?_⟩, rfl, rfl, rfl, rfl⟩
    exfalso; simp only at hc; omega
  · have hlt : s.readPosition < s.input.length := by
      rw [h.1]; omega
    rw [if_neg hle, List.get?_eq_get hlt]
    refine ⟨_, rfl, ⟨h.1, fun hc => ?_, rfl, fun hp => ?_⟩, rfl, rfl, rfl, rfl⟩
    · exfalso; simp only at hc; omega
    · simp only
      exact List.get?_eq_get hlt

theorem peekChar_some (s : LexState) (h : LexInv s) : ∃ c, peekChar s = some c := by
  unfold peekChar
  by_cases hle : s.inputLength ≤ s.readPosition
  · exact ⟨_, by rw [if_pos hle]⟩
  · have hlt : s.readPosition < s.input.length := by rw [h.1]; omega
    rw [if_neg hle, List.get?_eq_get hlt]
    exact ⟨_, rfl⟩

theorem nullChar_not_ws : isRustWhitespace nullChar = false := by decide

theorem nullChar_not_letter : isLetter nullChar = false := by decide

theorem nullChar_not_digit : isDigitCh nullChar = false := by decide

theorem skipWhitespace_some :
    ∀ (f : Nat) (s : LexState), LexInv s → s.inputLength + 2 ≤ f + s.readPosition → 1 ≤ f →
      ∃ s', skipWhitespace f s = some s' ∧ LexInv s' ∧ s'.inputLength = s.inputLength ∧
        s'.input = s.input := by
  intro f
  induction f with
  | zero => intro s _ _ h1; omega
  | succ f ih =>
    intro s h hf _
    by_cases hws : isRustWhitespace s.ch
    · have hch : s.ch ≠ nullChar := by
        intro he; rw [he] at hws; rw [nullChar_not_ws] at hws; exact Bool.false_ne_true hws
      have hrp : s.readPosition ≤ s.inputLength := by
        by_contra hgt; push_neg at hgt; exact hch (h.2.1 hgt)
      obtain ⟨s1, hrc, hinv1, hin1, hlen1, hrp1, _⟩ := readChar_some s h
      have hf' : s1.inputLength + 2 ≤ f + s1.readPosition := by rw [hlen1, hrp1]; omega
      have h1' : 1 ≤ f := by omega
      obtain ⟨s', hs', hinv', hlen', hin'⟩ := ih s1 hinv1 hf' h1'
      refine ⟨s', ?_, hinv', by rw [hlen', hlen1], by rw [hin', hin1]⟩
      simp only [skipWhitespace, if_pos hws, hrc, Option.bind_some]
      exact hs'
    · exact ⟨s, by simp only [skipWhitespace, if_neg hws], h, rfl, rfl⟩

theorem readIdentLoop_some :
    ∀ (f : Nat) (s : LexState), LexInv s → s.inputLength + 2 ≤ f + s.readPosition → 1 ≤ f →
      ∃ s', readIdentLoop f s = some s' ∧ LexInv s' ∧ s'.inputLength = s.inputLength ∧
        s'.input = s.input := by
  intro f
  induction f with
  | zero => intro s _ _ h1; omega
  | succ f ih =>
    intro s h hf _
    by_cases hl : isLetter s.ch
    · have hch : s.ch ≠ nullChar := by
        intro he; rw [he] at hl; rw [nullChar_not_letter] at hl; exact Bool.false_ne_true hl
      have hrp : s.readPosition ≤ s.inputLength := by
        by_contra hgt; push_neg at hgt; exact hch (h.2.1 hgt)
      obtain ⟨s1, hrc, hinv1, hin1, hlen1, hrp1, _⟩ := readChar_some s h
      have hf' : s1.inputLength + 2 ≤ f + s1.readPosition := by rw [hlen1, hrp1]; omega
      have h1' : 1 ≤ f := by omega
      obtain ⟨s', hs', hinv', hlen', hin'⟩ := ih s1 hinv1 hf' h1'
      refine ⟨s', ?_, hinv', by rw [hlen', hlen1], by rw [hin', hin1]⟩
      simp only [readIdentLoop, if_pos hl, hrc, Option.bind_some]
      exact hs'
    · exact ⟨s, by simp only [readIdentLoop, if_neg hl], h, rfl, rfl⟩

theorem readDigitLoop_some :
    ∀ (f : Nat) (s : LexState), LexInv s → s.inputLength + 2 ≤ f + s.readPosition → 1 ≤ f →
      ∃ s', readDigitLoop f s = some s' ∧ LexInv s' ∧ s'.inputLength = s.inputLength ∧
        s'.input = s.input ∧ s.position ≤ s'.position ∧
        (s'.position ≤ s.input.length ∨ s'.position = s.position) ∧
        (∀ c ∈ (s.input.drop s.position).take (s'.position - s.position), isDigitCh c = true) ∧
        (isDigitCh s.ch = true → s.position < s'.position) := by
  intro f
  induction f with
  | zero => intro s _ _ h1; omega
  | succ f ih =>
    intro s h hf _
    by_cases hl : isDigitCh s.ch
    · have hch : s.ch ≠ nullChar := by
        intro he; rw [he] at hl; rw [nullChar_not_digit] at hl; exact Bool.false_ne_true hl
      have hrp : s.readPosition ≤ s.inputLength := by
        by_contra hgt; push_neg at hgt; exact hch (h.2.1 hgt)
      have h1 := h.1
      have h3 := h.2.2.1
      have hpos : s.position < s.input.length := by omega
      have hget : s.input.get? s.position = some s.ch := h.2.2.2 hpos
      obtain ⟨s1, hrc, hinv1, hin1, hlen1, hrp1, hpos1⟩ := readChar_some s h
      have hf' : s1.inputLength + 2 ≤ f + s1.readPosition := by rw [hlen1, hrp1]; omega
      have h1' : 1 ≤ f := by omega
      obtain ⟨s', hs', hinv', hlen', hin', hle', hbound', hdig', _⟩ := ih s1 hinv1 hf' h1'
      have hpos1' : s1.position = s.position + 1 := by rw [hpos1, h3]
      rw [hin1, hpos1'] at hdig'
      have hposlt : s.position < s'.position := by omega
      refine ⟨s', ?_, hinv', by rw [hlen', hlen1], by rw [hin', hin1], by omega, ?_, ?_,
        fun _ => hposlt⟩
      · simp only [readDigitLoop, if_pos hl, hrc, Option.bind_some]
        exact hs'
      · left
        rcases hbound' with hb | hb
        · rw [hin1] at hb; exact hb
        · rw [hb, hpos1']; omega
      · have he : s.input.get ⟨s.position, hpos⟩ = s.ch := by
          have hg := List.get?_eq_get hpos
          rw [hget] at hg
          exact (Option.some.inj hg).symm
        have hdrop : s.input.drop s.position = s.ch :: s.input.drop (s.position + 1) := by
          rw [List.drop_eq_get_cons hpos, he]
        have hk : s'.position - s.position = (s'.position - (s.position + 1)) + 1 := by omega
        intro c hc
        rw [hk, hdrop, List.take_succ_cons] at hc
        rcases List.mem_cons.mp hc with hc | hc
        · rw [hc]; exact hl
        · exact hdig' c hc
    · refine ⟨s, by simp only [readDigitLoop, if_neg hl], h, rfl, rfl, le_rfl, Or.inr rfl,
        ?_, fun hx => absurd hx hl⟩
      intro c hc
      simp only [Nat.sub_self, List.take_zero, List.not_mem_nil] at hc

theorem readIdentifier_some (s : LexState) (h : LexInv s) :
    ∃ r s', readIdentifier (s.inputLength + 2) s = some (r, s') ∧ LexInv s' ∧
      s'.input = s.input := by
  obtain ⟨s', hs', hinv', _, hin'⟩ :=
    readIdentLoop_some (s.inputLength + 2) s h (by omega) (by omega)
  refine ⟨String.mk ((s'.input.drop s.position).take (s'.position - s.position)),
    s', ?_, hinv', hin'⟩
  simp only [readIdentifier, hs', Option.map_some']

theorem readDigit_some (s : LexState) (h : LexInv s) (hch : isDigitCh s.ch = true)
    (hd : DigitRunsFit s.input) :
    ∃ r s', readDigit (s.inputLength + 2) s = some (r, s') ∧ LexInv s' ∧
      s'.input = s.input := by
  obtain ⟨s', hs', hinv', _, hin', hle, hbound, hdig, hlt⟩ :=
    readDigitLoop_some (s.inputLength + 2) s h (by omega) (by omega)
  have hposlt : s.position < s'.position := hlt hch
  have hbound' : s'.position ≤ s.input.length := by
    rcases hbound with hb | hb
    · exact hb
    · omega
  have hnil : (s.input.drop s.position).take (s'.position - s.position) ≠ [] := by
    apply List.ne_nil_of_length_pos
    rw [List.length_take, List.length_drop]
    omega
  have hfit : charsToNat ((s.input.drop s.position).take (s'.position - s.position)) ≤
      isizeMax :=
    hd s.position (by omega) (s'.position - s.position) (by omega) hdig
  refine ⟨Int.ofNat (charsToNat ((s.input.drop s.position).take (s'.position - s.position))),
    s', ?_, hinv', hin'⟩
  simp only [readDigit, hs', Option.bind, hin']
  rw [if_pos ⟨hnil, hdig, hfit⟩]

theorem mapReadChar (s : LexState) (h : LexInv s) (tok : Token) :
    ∃ s', ((readChar s).map fun s1 => (tok, s1)) = some (tok, s') ∧ LexInv s' ∧
      s'.input = s.input ∧ s'.readPosition = s.readPosition + 1 := by
  obtain ⟨s1, h1, h2, h3, _, h5, _⟩ := readChar_some s h
  exact ⟨s1, by rw [h1, Option.map_some'], h2, h3, h5⟩

/-- Totality of `next_token` on states satisfying the ASCII invariant,
provided every digit run of the input fits in `isize` (otherwise
`read_digit`'s `parse::<isize>().unwrap()` panics): it always returns a
token, preserves the invariant and leaves the character list unchanged. -/
theorem lexNextToken_some (s : LexState) (h : LexInv s) (hd : DigitRunsFit s.input) :
    ∃ t s', lexNextToken s = some (t, s') ∧ LexInv s' ∧ s'.input = s.input := by
  obtain ⟨s1, hskip, hinv1, _, hin1⟩ :=
    skipWhitespace_some (s.inputLength + 2) s h (by omega) (by omega)
  unfold lexNextToken
  simp only [hskip]
  by_cases c1 : s1.ch = '='
  · rw [if_pos c1]
    obtain ⟨p, hp⟩ := peekChar_some s1 hinv1
    simp only [hp]
    by_cases cq : p = '='
    · rw [if_pos cq]
      obtain ⟨s2, h2, hinv2, hin2, _, _, _⟩ := readChar_some s1 hinv1
      rw [h2]
      obtain ⟨s3, h3, hinv3, hin3, _⟩ := mapReadChar s2 hinv2 Token.EQ
      exact ⟨Token.EQ, s3, h3, hinv3, by rw [hin3, hin2, hin1]⟩
    · rw [if_neg cq]
      obtain ⟨s2, h2, hinv2, hin2, _⟩ := mapReadChar s1 hinv1 Token.ASSIGN
      exact ⟨_, s2, h2, hinv2, by rw [hin2, hin1]⟩
  rw [if_neg c1]
  by_cases c2 : s1.ch = '+'
  · rw [if_pos c2]
    obtain ⟨s2, h2, hinv2, hin2, _⟩ := mapReadChar s1 hinv1 Token.PLUS
    exact ⟨_, s2, h2, hinv2, by rw [hin2, hin1]⟩
  rw [if_neg c2]
  by_cases c3 : s1.ch = '-'
  · rw [if_pos c3]
    obtain ⟨s2, h2, hinv2, hin2, _⟩ := mapReadChar s1 hinv1 Token.MINUS
    exact ⟨_, s2, h2, hinv2, by rw [hin2, hin1]⟩
  rw [if_neg c3]
  by_cases c4 : s1.ch = '!'
  · rw [if_pos c4]
    obtain ⟨p, hp⟩ := peekChar_some s1 hinv1
    simp only [hp]
    by_cases cq : p = '='
    · rw [if_pos cq]
      obtain ⟨s2, h2, hinv2, hin2, _, _, _⟩ := readChar_some s1 hinv1
      rw [h2]
      obtain ⟨s3, h3, hinv3, hin3, _⟩ := mapReadChar s2 hinv2 Token.NOT_EQ
      exact ⟨Token.NOT_EQ, s3, h3, hinv3, by rw [hin3, hin2, hin1]⟩
    · rw [if_neg cq]
      obtain ⟨s2, h2, hinv2, hin2, _⟩ := mapReadChar s1 hinv1 Token.BANG
      exact ⟨_, s2, h2, hinv2, by rw [hin2, hin1]⟩
  rw [if_neg c4]
  by_cases c5 : s1.ch = '*'
  · rw [if_pos c5]
    obtain ⟨s2, h2, hinv2, hin2, _⟩ := mapReadChar s1 hinv1 Token.ASTERISK
    exact ⟨_, s2, h2, hinv2, by rw [hin2, hin1]⟩
  rw [if_neg c5]
  by_cases c6 : s1.ch = '/'
  · rw [if_pos c6]
    obtain ⟨s2, h2, hinv2, hin2, _⟩ := mapReadChar s1 hinv1 Token.SLASH
    exact ⟨_, s2, h2, hinv2, by rw [hin2, hin1]⟩
  rw [if_neg c6]
  by_cases c7 : s1.ch = '<'
  · rw [if_pos c7]
    obtain ⟨s2, h2, hinv2, hin2, _⟩ := mapReadChar s1 hinv1 Token.LT
    exact ⟨_, s2, h2, hinv2, by rw [hin2, hin1]⟩
  rw [if_neg c7]
  by_cases c8 : s1.ch = '>'
  · rw [if_pos c8]
    obtain ⟨s2, h2, hinv2, hin2, _⟩ := mapReadChar s1 hinv1 Token.GT
    exact ⟨_, s2, h2, hinv2, by rw [hin2, hin1]⟩
  rw [if_neg c8]
  by_cases c9 : s1.ch = ','
  · rw [if_pos c9]
    obtain ⟨s2, h2, hinv2, hin2, _⟩ := mapReadChar s1 hinv1 Token.COMMA
    exact ⟨_, s2, h2, hinv2, by rw [hin2, hin1]⟩
  rw [if_neg c9]
  by_cases c10 : s1.ch = ';'
  · rw [if_pos c10]
    obtain ⟨s2, h2, hinv2, hin2, _⟩ := mapReadChar s1 hinv1 Token.SEMICOLON
    exact ⟨_, s2, h2, hinv2, by rw [hin2, hin1]⟩
  rw [if_neg c10]
  by_cases c11 : s1.ch = '('
  · rw [if_pos c11]
    obtain ⟨s2, h2, hinv2, hin2, _⟩ := mapReadChar s1 hinv1 Token.LPAREN
    exact ⟨_, s2, h2, hinv2, by rw [hin2, hin1]⟩
  rw [if_neg c11]
  by_cases c12 : s1.ch = ')'
  · rw [if_pos c12]
    obtain ⟨s2, h2, hinv2, hin2, _⟩ := mapReadChar s1 hinv1 Token.RPAREN
    exact ⟨_, s2, h2, hinv2, by rw [hin2, hin1]⟩
  rw [if_neg c12]
  by_cases c13 : s1.ch = Char.ofNat 123
  · rw [if_pos c13]
    obtain ⟨s2, h2, hinv2, hin2, _⟩ := mapReadChar s1 hinv1 Token.LBRACE
    exact ⟨_, s2, h2, hinv2, by rw [hin2, hin1]⟩
  rw [if_neg c13]
  by_cases c14 : s1.ch = Char.ofNat 125
  · rw [if_pos c14]
    obtain ⟨s2, h2, hinv2, hin2, _⟩ := mapReadChar s1 hinv1 Token.RBRACE
    exact ⟨_, s2, h2, hinv2, by rw [hin2, hin1]⟩
  rw [if_neg c14]
  by_cases c15 : s1.ch = nullChar
  · rw [if_pos c15]
    obtain ⟨s2, h2, hinv2, hin2, _⟩ := mapReadChar s1 hinv1 Token.EOF
    exact ⟨_, s2, h2, hinv2, by rw [hin2, hin1]⟩
  rw [if_neg c15]
  by_cases c16 : isLetter s1.ch = true
  · rw [if_pos c16]
    obtain ⟨r, s2, h2, hinv2, hin2⟩ := readIdentifier_some s1 hinv1
    exact ⟨lookupIdent r, s2, by rw [h2, Option.map_some'], hinv2, by rw [hin2, hin1]⟩
  rw [if_neg c16]
  by_cases c17 : isDigitCh s1.ch = true
  · rw [if_pos c17]
    have hd1 : DigitRunsFit s1.input := by rw [hin1]; exact hd
    obtain ⟨r, s2, h2, hinv2, hin2⟩ := readDigit_some s1 hinv1 c17 hd1
    exact ⟨Token.INT r, s2, by rw [h2, Option.map_some'], hinv2, by rw [hin2, hin1]⟩
  rw [if_neg c17]
  obtain ⟨s2, h2, hinv2, hin2, _⟩ := mapReadChar s1 hinv1 Token.ILLEGAL
  exact ⟨_, s2, h2, hinv2, by rw [hin2, hin1]⟩

/-- On the ASCII invariant, a character that is not whitespace, not an
explicitly matched operator/punctuation character, not the end
sentinel, not an identifier character and not a digit produces
`ILLEGAL`, and the cursor moves past it. -/
theorem lexNextToken_illegal (s : LexState) (h : LexInv s)
    (hws : ¬ isRustWhitespace s.ch = true) (hop : s.ch ∉ opChars)
    (hnull : s.ch ≠ nullChar) (hlet : ¬ isLetter s.ch = true)
    (hdig : ¬ isDigitCh s.ch = true) :
    ∃ s', lexNextToken s = some (Token.ILLEGAL, s') ∧ LexInv s' ∧
      s'.input = s.input ∧ s'.readPosition = s.readPosition + 1 := by
  have hskip : skipWhitespace (s.inputLength + 2) s = some s := by
    show skipWhitespace (s.inputLength + 1 + 1) s = some s
    simp only [skipWhitespace, if_neg hws]
  simp only [opChars, List.mem_cons, List.not_mem_nil, or_false, not_or] at hop
  obtain ⟨n1, n2, n3, n4, n5, n6, n7, n8, n9, n10, n11, n12, n13, n14⟩ := hop
  unfold lexNextToken
  simp only [hskip]
  rw [if_neg n1, if_neg n2, if_neg n3, if_neg n4, if_neg n5, if_neg n6,
     if_neg n7, if_neg n8, if_neg n9, if_neg n10, if_neg n11, if_neg n12,
     if_neg n13, if_neg n14, if_neg hnull, if_neg hlet, if_neg hdig]
  exact mapReadChar s h Token.ILLEGAL

theorem utf8Len_ascii :
    ∀ cs : List Char, (∀ c ∈ cs, c.utf8Size = 1) → utf8Len cs = cs.length := by
  intro cs
  induction cs with
  | nil => intro _; rfl
  | cons c rest ih =>
    intro h
    have hc : c.utf8Size = 1 := h c (List.mem_cons_self c rest)
    have hr := ih fun x hx => h x (List.mem_cons_of_mem c hx)
    simp only [utf8Len, List.map_cons, List.sum_cons, hc, List.length_cons]
    simp only [utf8Len] at hr
    omega

/-- Every all-ASCII input puts `Lexer::new` in a state satisfying the
invariant. -/
theorem lexInv_init (cs : List Char) (h : ∀ c ∈ cs, c.utf8Size = 1) :
    LexInv (lexInit cs) := by
  cases cs with
  | nil => decide
  | cons c rest =>
    have hlen : utf8Len (c :: rest) = (c :: rest).length := utf8Len_ascii _ h
    refine ⟨hlen.symm, ?_, rfl, fun _ => rfl⟩
    intro hlt
    exfalso
    simp only [lexInit] at hlt
    rw [hlen] at hlt
    simp only [List.length_cons] at hlt
    omega

/-- Once the input is exhausted (`ch` is the sentinel and the cursor
is past the byte length), `next_token` returns `EOF` — and keeps doing
so forever, since the successor state is exhausted again. -/
theorem lexAtEnd (s : LexState) (h1 : s.ch = nullChar)
    (h2 : s.inputLength ≤ s.readPosition) :
    lexNextToken s = some (Token.EOF,
      { s with position := s.readPosition, readPosition := s.readPosition + 1,
               ch := nullChar }) := by
  obtain ⟨inp, len, pos, rp, ch⟩ := s
  simp only at h1 h2
  subst h1
  have hws : ¬ isRustWhitespace nullChar = true := by rw [nullChar_not_ws]; simp
  have hskip : skipWhitespace (len + 2) ⟨inp, len, pos, rp, nullChar⟩ =
      some ⟨inp, len, pos, rp, nullChar⟩ := by
    show skipWhitespace (len + 1 + 1) _ = _
    simp only [skipWhitespace]
    rw [if_neg hws]
  unfold lexNextToken
  rw [hskip]
  simp [readChar, h2]
  rw [if_neg (show ¬ (nullChar = '=') by decide),
     if_neg (show ¬ (nullChar = '+') by decide),
     if_neg (show ¬ (nullChar = '-') by decide),
     if_neg (show ¬ (nullChar = '!') by decide),
     if_neg (show ¬ (nullChar = '*') by decide),
     if_neg (show ¬ (nullChar = '/') by decide),
     if_neg (show ¬ (nullChar = '<') by decide),
     if_neg (show ¬ (nullChar = '>') by decide),
     if_neg (show ¬ (nullChar = ',') by decide),
     if_neg (show ¬ (nullChar = ';') by decide),
     if_neg (show ¬ (nullChar = '(') by decide),
     if_neg (show ¬ (nullChar = ')') by decide),
     if_neg (show ¬ (nullChar = Char.ofNat 123) by decide),
     if_neg (show ¬ (nullChar = Char.ofNat 125) by decide)]

/-! ## Divergence of the let/return skip loop (claim C6)

Once the token stream past the cursor contains no `SEMICOLON`, the
`while !current_token_is(SEMICOLON)` loop can never terminate: the
stream only yields `EOF` from then on, which the loop does not test
for. -/

theorem noSemi_pAdvance (s : PState) (h : NoSemi s) : NoSemi (pAdvance s) := by
  obtain ⟨h1, h2, h3⟩ := h
  refine ⟨h2, ?_, ?_⟩
  · cases hr : s.rest with
    | nil => simp [pAdvance, hr]
    | cons t ts =>
      simp only [pAdvance, hr, List.headD_cons]
      intro he
      exact h3 (by rw [hr, he]; exact List.mem_cons_self _ _)
  · cases hr : s.rest with
    | nil => simp [pAdvance, hr]
    | cons t ts =>
      simp only [pAdvance, hr, List.tail_cons]
      intro hm
      exact h3 (by rw [hr]; exact List.mem_cons_of_mem _ hm)

/-- The skip loop never returns on a semicolon-free stream, whatever
the fuel: this is the embedding's rendering of non-termination. -/
theorem skipToSemicolon_none :
    ∀ (f : Nat) (s : PState), NoSemi s → skipToSemicolon f s = none := by
  intro f
  induction f with
  | zero => intro s _; rfl
  | succ f ih =>
    intro s h
    show (parserStep (parserAt f)).skipSemi s = none
    simp only [parserStep, if_neg h.1]
    exact ih (pAdvance s) (noSemi_pAdvance s h)

/-- Lemma `skipToSemicolon_none` restated on the bundle projection. -/
theorem skipSemiAt_none :
    ∀ (f : Nat) (s : PState), NoSemi s → (parserAt f).skipSemi s = none :=
  skipToSemicolon_none

theorem pInit_letNoSemi : pInit letNoSemiTokens = letNoSemiInit := rfl

theorem parseLet_letNoSemi_diverges :
    ∀ f : Nat, (parserAt f).letS letNoSemiInit = none := by
  intro f
  cases f with
  | zero => rfl
  | succ f =>
    show (parserStep (parserAt f)).letS letNoSemiInit = none
    have hskip := skipSemiAt_none f letNoSemiSkipState (by decide)
    simp only [parserStep, letNoSemiInit, expectPeek, pAdvance] at hskip ⊢
    simp only [letNoSemiSkipState] at hskip
    simp [hskip]

theorem parseStatement_letNoSemi_diverges :
    ∀ f : Nat, (parserAt f).stmt letNoSemiInit = none := by
  intro f
  cases f with
  | zero => rfl
  | succ f =>
    show (parserStep (parserAt f)).stmt letNoSemiInit = none
    simp only [parserStep, letNoSemiInit]
    have h := parseLet_letNoSemi_diverges f
    simp only [letNoSemiInit] at h
    exact h

theorem parseProgram_letNoSemi_diverges :
    ∀ f : Nat, parseProgram f (pInit letNoSemiTokens) = none := by
  intro f
  cases f with
  | zero => rfl
  | succ f =>
    show (parserStep (parserAt f)).program letNoSemiInit = none
    simp only [parserStep, letNoSemiInit]
    have h := parseStatement_letNoSemi_diverges f
    simp only [letNoSemiInit] at h
    simp [h]

/-! ## Claim theorems -/

/-- Claim C1 (corrected).  A `ReturnValue` produced by a statement
stops the program loop with the wrapper stripped by exactly one level,
and stops a block loop with the wrapper intact (so it short-circuits
every enclosing block); the doubly nested example
`if (10 > 1) { if (10 > 1) { return 10; } return 1; }` evaluates to
`Integer(10)` — not `ReturnValue(..)` and not `Integer(1)`.  The
original universal claim ("never a ReturnValue for every program") is
refuted by `claim_C1_counterexample`: only one wrapper level is
stripped, so a return whose value expression itself evaluates to a
`ReturnValue` leaks the inner wrapper. -/
theorem claim_C1 :
    (∀ (f : Nat) (st : Statement) (rest : List Statement) (env env1 : EnvT) (v : Object),
      evalStatement f st env = some (.ok (.returnValue v, env1)) →
      evalStatements (f + 1) (st :: rest) env = some (.ok (v, env1))) ∧
    (∀ (f : Nat) (st : Statement) (rest : List Statement) (env env1 : EnvT) (v : Object),
      evalStatement f st env = some (.ok (.returnValue v, env1)) →
      evalBlockStatements (f + 1) (st :: rest) env = some (.ok (.returnValue v, env1))) ∧
    evalProgram 1000 nestedReturnProg = some (.ok (.integer 10)) := by
  refine ⟨?_, ?_, rfl⟩
  · intro f st rest env env1 v h
    show (evalStep (evalAt f)).stmts (st :: rest) env = some (.ok (v, env1))
    simp only [evalStatement] at h
    simp [evalStep, h]
  · intro f st rest env env1 v h
    show (evalStep (evalAt f)).blockStmts (st :: rest) env =
      some (.ok (.returnValue v, env1))
    simp only [evalStatement] at h
    simp [evalStep, h]

/-- Witness for C1's two conditional conjuncts at a concrete return
statement. -/
theorem claim_C1_witness :
    evalStatements 11 [Statement.returnStmt (some (Expression.integerLiteral 7)),
      Statement.exprStmt (Expression.integerLiteral 1)] envNew =
        some (.ok (.integer 7, envNew)) ∧
    evalBlockStatements 11 [Statement.returnStmt (some (Expression.integerLiteral 7)),
      Statement.exprStmt (Expression.integerLiteral 1)] envNew =
        some (.ok (.returnValue (.integer 7), envNew)) :=
  ⟨claim_C1.1 10 _ _ _ _ _ rfl, claim_C1.2.1 10 _ _ _ _ _ rfl⟩

/-- Counterexample to C1 as stated: for
`return if (true) { return 5; };` the top-level eval returns
`ReturnValue(Integer(5))` — the internal wrapper leaks to the
caller. -/
theorem claim_C1_counterexample :
    evalProgram 10 returnLeakProg = some (.ok (.returnValue (.integer 5))) := rfl

/-- Claim C2 (confirmed).  Applying a `Function` value evaluates its
body in a fresh environment (`envNewEnclosed`) whose outer chain is
the function's *captured* environment — not the caller's, which does
not occur in the equation — with parameters positionally zipped to the
arguments; and the closure example
`let newAdder = fn(x) { fn(y) { x + y }; }; let addTwo = newAdder(2); addTwo(3);`
evaluates to `Integer(5)`. -/
theorem claim_C2 :
    (∀ (f : Nat) (ps : List String) (body : Statement) (fenv : EnvT) (args : List Object),
      applyFunction (f + 1) (.function ps body fenv) args =
        match evalStatement f body (bindParams ps args (envNewEnclosed fenv)) with
        | none => none
        | some (.error e) => some (.error e)
        | some (.ok (v, _)) =>
          match v with
          | .returnValue inner => some (.ok inner)
          | _ => some (.ok v)) ∧
    evalProgram 1000 closureProg = some (.ok (.integer 5)) :=
  ⟨fun _ _ _ _ _ => rfl, rfl⟩

/-- Claim C5 (corrected).  A `FunctionLiteral` captures the
environment *value* current at its evaluation (the source's
`env.clone()` snapshot), so a binding added to the same scope after
the `Function` value is created is *not* visible at call time:
`let f = fn() { x; }; let x = 5; f();` evaluates to the error
`identifier not found: x`, not `Integer(5)`. -/
theorem claim_C5 :
    (∀ (f : Nat) (ps : List String) (body : Statement) (env : EnvT),
      evalExpression (f + 1) (Expression.functionLiteral ps body) env =
        some (.ok (.function ps body env, env))) ∧
    evalProgram 1000 lateBindProg = some (.error "identifier not found: x") :=
  ⟨fun _ _ _ _ => rfl, rfl⟩

/-- Counterexample to C5 as stated: the late-binding example errors
instead of yielding `Integer(5)`. -/
theorem claim_C5_counterexample :
    evalProgram 1000 lateBindProg = some (.error "identifier not found: x") ∧
    evalProgram 1000 lateBindProg ≠ some (.ok (.integer 5)) := by
  refine ⟨rfl, ?_⟩
  intro h
  rw [show evalProgram 1000 lateBindProg =
    some (.error "identifier not found: x") from rfl] at h
  simp at h

/-- Claim C7 (confirmed).  Differing operand type tags always give
`type mismatch: <lt> <op> <rt>`; unary minus on a non-`Integer` gives
`unknown operator: -<type>`; and the four quoted programs produce
exactly the quoted messages. -/
theorem claim_C7 :
    (∀ (op : BinOp) (l r : Object), typeOf l ≠ typeOf r →
      evalBinaryExpression op l r =
        .error ("type mismatch: " ++ typeOf l ++ " " ++ binOpStr op ++ " " ++ typeOf r)) ∧
    (∀ v : Object, (∀ n : Int, v ≠ .integer n) →
      evalMinusUnaryOperator v = .error ("unknown operator: -" ++ typeOf v)) ∧
    evalProgram 1000 intPlusBoolProg = some (.error "type mismatch: INTEGER + BOOLEAN") ∧
    evalProgram 1000 minusTrueProg = some (.error "unknown operator: -BOOLEAN") ∧
    evalProgram 1000 boolPlusBoolProg = some (.error "unknown operator: BOOLEAN + BOOLEAN") ∧
    evalProgram 1000 unboundIdentProg = some (.error "identifier not found: foobar") ∧
    parseString "5 + true;" = some (intPlusBoolProg, []) ∧
    parseString "-true" = some (minusTrueProg, []) ∧
    parseString "true + false;" = some (boolPlusBoolProg, []) ∧
    parseString "foobar" = some (unboundIdentProg, []) := by
  refine ⟨?_, ?_, rfl, rfl, rfl, rfl, rfl, rfl, rfl, rfl⟩
  · intro op l r h
    unfold evalBinaryExpression
    rw [if_pos h]
  · intro v h
    cases v with
    | integer n => exact absurd rfl (h n)
    | boolean b => rfl
    | returnValue o => rfl
    | function a b c => rfl
    | null => rfl

/-- Witness for C7's two conditional conjuncts at concrete values. -/
theorem claim_C7_witness :
    evalBinaryExpression BinOp.PLUS (Object.integer 5) (Object.boolean true) =
      .error "type mismatch: INTEGER + BOOLEAN" ∧
    evalMinusUnaryOperator (Object.boolean true) = .error "unknown operator: -BOOLEAN" :=
  ⟨claim_C7.1 BinOp.PLUS (Object.integer 5) (Object.boolean true) (by decide),
   claim_C7.2.1 (Object.boolean true) (fun n h => nomatch h)⟩

/-- Claim C8 (confirmed).  Truthiness is: `Null` falsy, `Boolean(b)`
is `b`, everything else — including `Integer(0)` — truthy; an `If`
runs its consequence exactly when the condition value is truthy, the
alternative when falsy and present, and yields `Null` when falsy with
no alternative; `if (1) { 10 }` and `if (0) { 10 } else { 20 }` both
yield `Integer(10)` and `if (false) { 10 }` yields `Null`. -/
theorem claim_C8 :
    isTruthy Object.null = false ∧
    (∀ b : Bool, isTruthy (.boolean b) = b) ∧
    (∀ n : Int, isTruthy (.integer n) = true) ∧
    (∀ v : Object, isTruthy (.returnValue v) = true) ∧
    (∀ (ps : List String) (body : Statement) (env : EnvT),
      isTruthy (.function ps body env) = true) ∧
    (∀ (f : Nat) (cond : Expression) (cons : Statement) (alt : Option Statement)
       (env env1 : EnvT) (v : Object),
      evalExpression f cond env = some (.ok (v, env1)) → isTruthy v = true →
      evalExpression (f + 1) (.ifE cond cons alt) env = evalStatement f cons env1) ∧
    (∀ (f : Nat) (cond : Expression) (cons a : Statement) (env env1 : EnvT) (v : Object),
      evalExpression f cond env = some (.ok (v, env1)) → isTruthy v = false →
      evalExpression (f + 1) (.ifE cond cons (some a)) env = evalStatement f a env1) ∧
    (∀ (f : Nat) (cond : Expression) (cons : Statement) (env env1 : EnvT) (v : Object),
      evalExpression f cond env = some (.ok (v, env1)) → isTruthy v = false →
      evalExpression (f + 1) (.ifE cond cons none) env = some (.ok (.null, env1))) ∧
    evalProgram 1000 ifOneProg = some (.ok (.integer 10)) ∧
    evalProgram 1000 ifZeroProg = some (.ok (.integer 10)) ∧
    evalProgram 1000 ifFalseProg = some (.ok .null) ∧
    parseString "if (1) { 10 }" = some (ifOneProg, []) ∧
    parseString "if (0) { 10 } else { 20 }" = some (ifZeroProg, []) ∧
    parseString "if (false) { 10 }" = some (ifFalseProg, []) := by
  refine ⟨rfl, fun b => rfl, fun n => rfl, fun v => rfl, fun ps body env => rfl,
    ?_, ?_, ?_, rfl, rfl, rfl, rfl, rfl, rfl⟩
  · intro f cond cons alt env env1 v h ht
    show (evalStep (evalAt f)).expr (.ifE cond cons alt) env = _
    simp only [evalExpression] at h
    simp [evalStep, h, ht]
    rfl
  · intro f cond cons a env env1 v h ht
    show (evalStep (evalAt f)).expr (.ifE cond cons (some a)) env = _
    simp only [evalExpression] at h
    simp [evalStep, h, ht]
    rfl
  · intro f cond cons env env1 v h ht
    show (evalStep (evalAt f)).expr (.ifE cond cons none) env = _
    simp only [evalExpression] at h
    simp [evalStep, h, ht]

/-- Witness for C8's three conditional conjuncts at concrete
conditions. -/
theorem claim_C8_witness :
    evalExpression 11 (Expression.ifE (Expression.integerLiteral 1)
      (Statement.exprStmt (Expression.integerLiteral 99)) none) envNew =
      evalStatement 10 (Statement.exprStmt (Expression.integerLiteral 99)) envNew ∧
    evalExpression 11 (Expression.ifE (Expression.booleanLiteral false)
      (Statement.exprStmt (Expression.integerLiteral 99))
      (some (Statement.exprStmt (Expression.integerLiteral 42)))) envNew =
      evalStatement 10 (Statement.exprStmt (Expression.integerLiteral 42)) envNew ∧
    evalExpression 11 (Expression.ifE (Expression.booleanLiteral false)
      (Statement.exprStmt (Expression.integerLiteral 99)) none) envNew =
      some (.ok (.null, envNew)) :=
  ⟨claim_C8.2.2.2.2.2.1 10 _ _ _ _ _ _ rfl rfl,
   claim_C8.2.2.2.2.2.2.1 10 _ _ _ _ _ _ rfl rfl,
   claim_C8.2.2.2.2.2.2.2.1 10 _ _ _ _ _ rfl rfl⟩

/-- Claim C9 (corrected).  On every lexer state satisfying the ASCII
invariant `LexInv` — which holds initially for every input of one-byte
(ASCII) characters and is preserved by `next_token` — `next_token`
returns a token whenever every digit run of the input has value at
most `isize::MAX` (the bound `DigitRunsFit`), and a character that is
not whitespace, not an operator/punctuation character, not the end
sentinel, not a letter or underscore, and not a digit yields `ILLEGAL`
with the cursor advanced past it.  The original claim's "for arbitrary
input bytes, including non-ASCII" is refuted twice by
`claim_C9_counterexample`: the lexer bounds its cursor by the UTF-8
*byte* length but indexes *characters*, so on non-ASCII input
`read_char`'s `unwrap` panics; and even on ASCII input, an integer
literal exceeding `isize::MAX` makes `read_digit`'s
`parse::<isize>().unwrap()` panic. -/
theorem claim_C9 :
    (∀ cs : List Char, (∀ c ∈ cs, c.utf8Size = 1) → LexInv (lexInit cs)) ∧
    (∀ s : LexState, LexInv s → DigitRunsFit s.input →
      ∃ t s', lexNextToken s = some (t, s') ∧ LexInv s' ∧ s'.input = s.input) ∧
    (∀ s : LexState, LexInv s → ¬ isRustWhitespace s.ch = true → s.ch ∉ opChars →
      s.ch ≠ nullChar → ¬ isLetter s.ch = true → ¬ isDigitCh s.ch = true →
      ∃ s', lexNextToken s = some (Token.ILLEGAL, s') ∧ LexInv s' ∧
        s'.input = s.input ∧ s'.readPosition = s.readPosition + 1) :=
  ⟨lexInv_init, lexNextToken_some, lexNextToken_illegal⟩

/-- Witness for C9: totality at the ASCII input `"let x"` (whose digit
runs are all empty, hence within the `isize` bound), and the
`ILLEGAL`-and-continue behaviour at `'~'`. -/
theorem claim_C9_witness :
    (∃ t s', lexNextToken (lexInit ("let x".toList)) = some (t, s') ∧ LexInv s' ∧
      s'.input = (lexInit ("let x".toList)).input) ∧
    (∃ s', lexNextToken (lexInit ['~']) = some (Token.ILLEGAL, s') ∧ LexInv s' ∧
      s'.input = (lexInit ['~']).input ∧
      s'.readPosition = (lexInit ['~']).readPosition + 1) :=
  ⟨claim_C9.2.1 _ (claim_C9.1 _ (by decide)) (by decide),
   claim_C9.2.2 _ (claim_C9.1 _ (by decide)) (by decide) (by decide) (by decide)
     (by decide) (by decide)⟩

/-- Counterexample to C9 as stated, in both directions the amendment
restricts.  First, on the one-character non-ASCII input `é` (U+00E9,
UTF-8 byte length 2), the very first call to `next_token` hits
`read_char`'s `unwrap` panic (embedded as `none`) instead of returning
a token.  Second, on the all-ASCII input `9223372036854775808`
(`isize::MAX + 1`), `read_digit`'s `parse::<isize>().unwrap()`
panics, so `next_token` again returns no token. -/
theorem claim_C9_counterexample :
    lexNextToken (lexInit [Char.ofNat 233]) = none ∧
    lexNextToken (lexInit ("9223372036854775808".toList)) = none := by
  exact ⟨by decide, by decide⟩

/-- Claim C10 (confirmed).  `==`/`!=` on two `Function` values never
errors: both type tags are `FUNCTION`, so the result is
`Boolean(objBeq ..)` where `objBeq` on functions is componentwise
structural equality of parameter lists, bodies and captured
environments; `fn(x) { x; } == fn(x) { x; }` in a fresh environment
yields `Boolean(true)`, while two textually identical literals
captured in environments with different bindings compare
`Boolean(false)`. -/
theorem claim_C10 :
    (∀ (ps : List String) (body : Statement) (env : EnvT)
       (ps' : List String) (body' : Statement) (env' : EnvT),
      evalBinaryExpression BinOp.EQ (.function ps body env) (.function ps' body' env') =
        .ok (.boolean (objBeq (.function ps body env) (.function ps' body' env'))) ∧
      evalBinaryExpression BinOp.NOT_EQ (.function ps body env) (.function ps' body' env') =
        .ok (.boolean (!objBeq (.function ps body env) (.function ps' body' env'))) ∧
      objBeq (.function ps body env) (.function ps' body' env') =
        (ps == ps' && beqStmt body body' && envBeq env env')) ∧
    evalProgram 1000 fnEqProg = some (.ok (.boolean true)) ∧
    evalProgram 1000 fnEnvDiffProg = some (.ok (.boolean false)) ∧
    parseString "fn(x) { x; } == fn(x) { x; }" = some (fnEqProg, []) :=
  ⟨fun _ _ _ _ _ _ => ⟨rfl, rfl, rfl⟩, rfl, rfl, rfl⟩

/-- Claim C3 (corrected).  Every `Prefix` node renders as `(opR)` and
every `Infix` node as `(L op R)`, and for the two quoted examples the
rendered text re-parses, without errors, to a structurally equal tree:
`-a * b` renders `((-a) * b)` and `a + b * c + d / e - f` renders
`(((a + (b * c)) + (d / e)) - f)`.  The original universal re-parse
claim is refuted by `claim_C3_counterexample`: `If` (and
`FunctionLiteral`) nodes render their blocks without braces, so their
renderings need not re-parse. -/
theorem claim_C3 :
    (∀ (op : UnOp) (r : Expression),
      displayExpr (Expression.unary op r) = "(" ++ unOpStr op ++ displayExpr r ++ ")") ∧
    (∀ (op : BinOp) (l r : Expression),
      displayExpr (Expression.binary op l r) =
        "(" ++ displayExpr l ++ " " ++ binOpStr op ++ " " ++ displayExpr r ++ ")") ∧
    (parseString "-a * b" = some ([Statement.exprStmt negMulTree], []) ∧
     displayProgram [Statement.exprStmt negMulTree] = "((-a) * b)" ∧
     parseString "((-a) * b)" = some ([Statement.exprStmt negMulTree], [])) ∧
    (parseString "a + b * c + d / e - f" = some ([Statement.exprStmt precChainTree], []) ∧
     displayProgram [Statement.exprStmt precChainTree] =
       "(((a + (b * c)) + (d / e)) - f)" ∧
     parseString "(((a + (b * c)) + (d / e)) - f)" =
       some ([Statement.exprStmt precChainTree], [])) :=
  ⟨fun _ _ => rfl, fun _ _ _ => rfl, ⟨rfl, rfl, rfl⟩, ⟨rfl, rfl, rfl⟩⟩

/-- Counterexample to C3 as stated: `if (x) { y }` parses without
errors, but its rendering `if x y` re-parses *with* a parse error and
to a structurally different tree (two identifier statements). -/
theorem claim_C3_counterexample :
    parseString "if (x) { y }" = some ([Statement.exprStmt ifBareTree], []) ∧
    displayProgram [Statement.exprStmt ifBareTree] = "if x y" ∧
    parseString "if x y" =
      some ([Statement.exprStmt (Expression.identifier "x"),
             Statement.exprStmt (Expression.identifier "y")],
            ["expected next token to be LPAREN, got IDENT(\"x\") instead"]) ∧
    [Statement.exprStmt (Expression.identifier "x"),
     Statement.exprStmt (Expression.identifier "y")] ≠
      [Statement.exprStmt ifBareTree] := by
  refine ⟨rfl, rfl, rfl, ?_⟩
  intro h
  simp [ifBareTree] at h

/-- Claim C4 (code bug).  The committed `parse_let_statement` does
require the `IDENT` and the `=`, but then *skips* every token up to
the `;` and stores no value expression at all (the source writes
`value: None`, which does not even typecheck against `ast.rs`); the
committed `parse_return_statement` likewise stores no value.  So
`let x = 5;` parses to a `Let` node with name `x` and *no* value — not
`IntegerLiteral(5)` — and `return 5;` to a `Return` node with no
value. -/
theorem claim_C4 :
    parseString "let x = 5;" = some ([Statement.letStmt "x" none], []) ∧
    parseString "return 5;" = some ([Statement.returnStmt none], []) :=
  ⟨rfl, rfl⟩

/-- Claim C6 (code bug).  On `let x = 5` — no trailing semicolon, end
of input — the skip loop of `parse_let_statement` spins forever: the
token stream contains no `SEMICOLON` and from the `=` on yields only
`INT(5)` and then `EOF` forever, which the loop never tests for, so
`parse_program` returns for *no* amount of fuel.  (The quantifier over
all fuel is the embedding's rendering of non-termination.) -/
theorem claim_C6 :
    lexString "let x = 5" = some letNoSemiTokens ∧
    ∀ f : Nat, parseProgram f (pInit letNoSemiTokens) = none :=
  ⟨rfl, parseProgram_letNoSemi_diverges⟩

/-- The spec's lexing-completeness test: `=+(){},;` lexes to exactly
the eight punctuation tokens (the stream then ends). -/
theorem lexString_completeness :
    lexString "=+(){},;" =
      some [Token.ASSIGN, Token.PLUS, Token.LPAREN, Token.RPAREN,
            Token.LBRACE, Token.RBRACE, Token.COMMA, Token.SEMICOLON] := by
  decide
